import Mathlib

set_option maxHeartbeats 1000000
set_option linter.unusedVariables false
set_option linter.unnecessarySeqFocus false

/-!
Verification development for the win32 platform layer of the APR
(Apache Portable Runtime) slice consisting of
`network_io/win32/sendrecv.c`, `file_io/win32/filestat.c`,
`file_io/win32/dir.c` and `locks/win32/proc_mutex.c`.

The C functions are shallowly embedded as executable Lean functions.
Native Windows calls (WSASend, WSARecv, TransmitFile, CloseHandle,
CreateDirectoryW, FindFirstFileExW, GetFileInformationByHandle,
GetNamedSecurityInfoW, ...) are modelled by explicit environment records
carrying the outcome of each native call; where a property requires
knowing that *no* native call was issued, functions additionally return a
trace of the native calls they made, in order.
-/

/-- The APR status taxonomy, restricted to the codes produced by the four
translation units.  `osError code` stands for `APR_FROM_OS_ERROR`/
`apr_get_os_error`/`apr_get_netos_error` wrappers of a native error code. -/
inductive Status where
  | success
  | incomplete
  | eof
  | einval
  | enomem
  | epathwild
  | ebadpath
  | enametoolong
  | eexist
  | enoent
  | eacces
  | egeneral
  | osError (code : Nat)
deriving DecidableEq, Repr

/- ------------------------------------------------------------------ -/
/- sendrecv.c: apr_socket_send / apr_socket_recv / apr_socket_sendv /
   apr_socket_sendto / apr_socket_recvfrom                             -/
/- ------------------------------------------------------------------ -/

/-- Native socket calls issued by the transfer wrappers (used in traces). -/
inductive NetCall where
  | wsaSend
  | wsaRecv
  | sendtoNative
  | recvfromNative
deriving DecidableEq, Repr

/-- Outcome of the single native transfer call a wrapper makes: `some n`
means the call succeeded having transferred `n` bytes (`dwBytes`/`rv`),
`none` means SOCKET_ERROR with last-error `errCode`. -/
structure NetEnv where
  result : Option Nat := none
  errCode : Nat := 0
deriving DecidableEq, Repr

/-- SOCK_STREAM versus SOCK_DGRAM, the `sock->type` field. -/
inductive SockType where
  | stream
  | dgram
deriving DecidableEq, Repr

/-- apr_socket_send (sendrecv.c:39-60).  `lenIn` is the caller's `*len` on
entry; the returned Nat is `*len` on exit.  On WSASend failure the code
stores 0 into `*len` and returns the wrapped native error. -/
def apr_socket_send (env : NetEnv) (lenIn : Nat) : Status × Nat :=
  match env.result with
  | none => (Status.osError env.errCode, 0)
  | some dwBytes => (Status.success, dwBytes)

/-- apr_socket_recv (sendrecv.c:63-84).  The socket's type field is taken
but (faithfully to the source) not consulted: a zero-byte successful
WSARecv yields APR_EOF for every socket type. -/
def apr_socket_recv (st : SockType) (env : NetEnv) (lenIn : Nat) : Status × Nat :=
  match env.result with
  | none => (Status.osError env.errCode, 0)
  | some dwBytes =>
    ((if dwBytes = 0 then Status.eof else Status.success), dwBytes)

/-- apr_socket_sendto (sendrecv.c:130-147). -/
def apr_socket_sendto (env : NetEnv) (lenIn : Nat) : Status × Nat :=
  match env.result with
  | none => (Status.osError env.errCode, 0)
  | some rv => (Status.success, rv)

/-- apr_socket_recvfrom (sendrecv.c:150-174).  `*len` is assigned the raw
count before the zero/stream check, so the EOF return also reports 0. -/
def apr_socket_recvfrom (st : SockType) (env : NetEnv) (lenIn : Nat) : Status × Nat :=
  match env.result with
  | none => (Status.osError env.errCode, 0)
  | some rv =>
    ((if rv = 0 ∧ st = SockType.stream then Status.eof else Status.success), rv)

/-- MAXDWORD, the largest value representable in a DWORD. -/
def MAXDWORD : Nat := 4294967295

/-- WSABUF_ON_STACK (sendrecv.c:37). -/
def WSABUF_ON_STACK : Nat := 50

/-- The overflow pre-check loop of apr_socket_sendv (sendrecv.c:98-107):
walking the iovec lengths, fail as soon as `iov_len > MAXDWORD - total`.
Returns true when the whole vector passes. -/
def sendv_total_check : List Nat → Nat → Bool
  | [], _ => true
  | v :: rest, total =>
    if v > MAXDWORD - total then false else sendv_total_check rest (total + v)

/-- Environment for apr_socket_sendv: whether the malloc for a large
vector fails, and the WSASend outcome. -/
structure SendvEnv where
  allocFail : Bool := false
  result : Option Nat := none
  errCode : Nat := 0
deriving DecidableEq, Repr

/-- apr_socket_sendv (sendrecv.c:87-127).  `vec` is the list of iovec
lengths.  Returns (status, `*nbytes` on exit, native-call trace).  On the
overflow and allocation-failure early returns `*nbytes` is not written,
so it keeps the caller-supplied `nbytesIn`; on a WSASend error `dwBytes`
is still 0 and is stored. -/
def apr_socket_sendv (env : SendvEnv) (vec : List Nat) (nbytesIn : Nat) :
    Status × Nat × List NetCall :=
  if sendv_total_check vec 0 = false then
    (Status.einval, nbytesIn, [])
  else if vec.length > WSABUF_ON_STACK ∧ env.allocFail then
    (Status.enomem, nbytesIn, [])
  else
    match env.result with
    | none => (Status.osError env.errCode, 0, [NetCall.wsaSend])
    | some dwBytes => (Status.success, dwBytes, [NetCall.wsaSend])

/- ------------------------------------------------------------------ -/
/- proc_mutex.c: cleanup / destroy / child_init                        -/
/- ------------------------------------------------------------------ -/

/-- Native calls issued by the process-mutex functions. -/
inductive MtxCall where
  | closeHandle (h : Nat)
  | openMutexNative
deriving DecidableEq, Repr

/-- The apr_proc_mutex_t record: the native handle (`none` models a NULL
HANDLE), the name, and whether the pool cleanup registration made by
create/child_init is still pending. -/
structure ProcMutex where
  handle : Option Nat
  fname : Option String
  registered : Bool
deriving DecidableEq, Repr

/-- Environment for the mutex functions: outcome of CloseHandle and of
OpenMutexW. -/
structure MtxEnv where
  closeOk : Bool := true
  closeErr : Nat := 0
  openMutexResult : Option Nat := none
  openErr : Nat := 0
deriving DecidableEq, Repr

/-- proc_mutex_cleanup (proc_mutex.c:26-36): CloseHandle when the handle
field is non-NULL.  Faithfully to the source, the handle field is NOT
cleared afterwards.  Returns (status, mutex after the call, native-call
trace). -/
def proc_mutex_cleanup (env : MtxEnv) (m : ProcMutex) : Status × ProcMutex × List MtxCall :=
  match m.handle with
  | none => (Status.success, m, [])
  | some h =>
    if env.closeOk then (Status.success, m, [MtxCall.closeHandle h])
    else (Status.osError env.closeErr, m, [MtxCall.closeHandle h])

/-- apr_proc_mutex_destroy (proc_mutex.c:158-167): run the cleanup and,
on success, kill the pool cleanup registration. -/
def apr_proc_mutex_destroy (env : MtxEnv) (m : ProcMutex) : Status × ProcMutex × List MtxCall :=
  match proc_mutex_cleanup env m with
  | (stat, m1, tr) =>
    if stat = Status.success then (stat, { m1 with registered := false }, tr)
    else (stat, m1, tr)

/-- The native releases performed at pool teardown: the registered
cleanup (proc_mutex_cleanup) runs iff the registration is still pending. -/
def pool_teardown_calls (env : MtxEnv) (m : ProcMutex) : List MtxCall :=
  if m.registered then (proc_mutex_cleanup env m).2.2 else []

/-- apr_proc_mutex_child_init (proc_mutex.c:75-105).  `mIn` is the
caller's `*mutex` variable on entry; the returned Option ProcMutex is its
value on exit.  With a NULL fname the function returns APR_SUCCESS
immediately, without writing through the output pointer. -/
def apr_proc_mutex_child_init (env : MtxEnv) (mIn : Option ProcMutex)
    (fname : Option String) : Status × Option ProcMutex :=
  match fname with
  | none => (Status.success, mIn)
  | some f =>
    match env.openMutexResult with
    | none => (Status.osError env.openErr, mIn)
    | some h =>
      (Status.success, some { handle := some h, fname := some f, registered := true })

/- ------------------------------------------------------------------ -/
/- dir.c: apr_dir_make / dir_make_parent / apr_dir_make_recursive      -/
/- ------------------------------------------------------------------ -/

/-- A directory path as its list of components (the C code works on a
backslash-separated string; splitting at the separators gives this
list).  `dir_make_parent`'s strrchr-based "strip the last component"
becomes `dropLast`, and "the path has no backslash" becomes "the path
has at most one component". -/
abbrev DirPath := List String

/-- The state of the filesystem: the set of directories that exist.
Single-component paths live directly under an implicitly existing root. -/
structure Fs where
  dirs : List DirPath
deriving DecidableEq, Repr

/-- Modelled from the spec: the native CreateDirectoryW call (platform
API, outside src/).  Creating an existing directory fails with the
already-exists error, creating below a missing parent fails with the
not-found error, otherwise the directory is created. -/
def CreateDirectoryW (fs : Fs) (p : DirPath) : Status × Fs :=
  if p ∈ fs.dirs then (Status.eexist, fs)
  else if p.dropLast ≠ [] ∧ p.dropLast ∉ fs.dirs then (Status.enoent, fs)
  else (Status.success, ⟨p :: fs.dirs⟩)

/-- apr_dir_make (dir.c:200-215).  The utf8-to-unicode conversion is
modelled as succeeding (paths here are already component lists). -/
def apr_dir_make (fs : Fs) (p : DirPath) : Status × Fs :=
  CreateDirectoryW fs p

/-- dir_make_parent (dir.c:218-241): strip the last path component; if
there is none, fail with APR_ENOENT; otherwise try to create the parent
directly, and on a missing intermediate component recurse on the parent
then retry it.  `fuel` bounds the recursion depth (the C recursion
terminates because each level strips one component; any `fuel ≥ p.length`
behaves like the C code). -/
def dir_make_parent (fuel : Nat) (fs : Fs) (p : DirPath) : Status × Fs :=
  match fuel with
  | 0 => (Status.enoent, fs)
  | fuel + 1 =>
    if p.length ≤ 1 then (Status.enoent, fs)
    else
      match apr_dir_make fs p.dropLast with
      | (rv, fs1) =>
        if rv = Status.enoent then
          match dir_make_parent fuel fs1 p.dropLast with
          | (rv2, fs2) =>
            if rv2 = Status.success ∨ rv2 = Status.eexist then
              apr_dir_make fs2 p.dropLast
            else (rv2, fs2)
        else (rv, fs1)

/-- apr_dir_make_recursive (dir.c:243-279): try the whole path first; on
a missing intermediate component create the parent chain and retry, and
treat an already-exists result (at the final retry or for the whole
path) as success.  apr_filepath_merge is the identity on our component
lists. -/
def apr_dir_make_recursive (fs : Fs) (p : DirPath) : Status × Fs :=
  match apr_dir_make fs p with
  | (rv, fs1) =>
    if rv = Status.enoent then
      match dir_make_parent p.length fs1 p with
      | (rv2, fs2) =>
        if rv2 = Status.success ∨ rv2 = Status.eexist then
          match apr_dir_make fs2 p with
          | (rv3, fs3) =>
            if rv3 = Status.eexist then (Status.success, fs3) else (rv3, fs3)
        else (rv2, fs2)
    else if rv = Status.eexist then (Status.success, fs1)
    else (rv, fs1)

/- ------------------------------------------------------------------ -/
/- dir.c: apr_dir_read and the too-long-entry skip loop                -/
/- ------------------------------------------------------------------ -/

/-- APR_PATH_MAX, the platform path-length limit (MAX_PATH = 260). -/
def APR_PATH_MAX : Nat := 260

/-- APR_FILE_MAX, the longest representable single file name (255). -/
def APR_FILE_MAX : Nat := 255

/-- Whether an entry name survives the apr_dir_read skip loop, i.e. the
assembled absolute path stays below the platform limit. -/
def name_fits (rootlen : Nat) (e : String) : Bool :=
  decide (rootlen + e.length < APR_PATH_MAX)

/-- The while loop of apr_dir_read (dir.c:139-145): while the current
entry's assembled path would reach APR_PATH_MAX, advance the native
cursor (FindNextFileW, modelled by popping `pending`); running out of
entries is the native no-more-files error, reported as `none`. -/
def skip_long_names (rootlen : Nat) (entry : String) (pending : List String) :
    Option (String × List String) :=
  if rootlen ≠ 0 ∧ rootlen + entry.length ≥ APR_PATH_MAX then
    match pending with
    | [] => none
    | e :: rest => skip_long_names rootlen e rest
  else some (entry, pending)

/-- The iteration state of an open directory handle: the remembered
root length, the beginning-of-stream flag, the entry currently held in
`thedir->entry` (prefetched by FindFirstFileExW), and the entries the
native cursor has not yet returned. -/
structure DirState where
  rootlen : Nat
  bof : Bool
  entry : String
  pending : List String
deriving DecidableEq, Repr

/-- One apr_dir_read call after a successful open (dir.c:91-183), for a
wanted-set within the fields the enumeration itself provides (so the
more_finfo escalation, which never changes which entries are visited, is
not modelled here).  ERROR_NO_MORE_FILES = 18.  The
unicode_to_utf8_path conversion fails with APR_ENAMETOOLONG when the
name does not fit the APR_FILE_MAX*3+1 buffer. -/
def apr_dir_read_model (d : DirState) : Status × Option String × DirState :=
  if d.bof then
    match skip_long_names d.rootlen d.entry d.pending with
    | none => (Status.osError 18, none, { d with bof := false })
    | some (nm, rest) =>
      if nm.length ≥ APR_FILE_MAX * 3 + 1 then
        (Status.enametoolong, none, { d with bof := false, entry := nm, pending := rest })
      else
        (Status.success, some nm, { d with bof := false, entry := nm, pending := rest })
  else
    match d.pending with
    | [] => (Status.osError 18, none, d)
    | e :: rest =>
      match skip_long_names d.rootlen e rest with
      | none => (Status.osError 18, none, { d with entry := e, pending := rest })
      | some (nm, rest2) =>
        if nm.length ≥ APR_FILE_MAX * 3 + 1 then
          (Status.enametoolong, none, { d with entry := nm, pending := rest2 })
        else
          (Status.success, some nm, { d with entry := nm, pending := rest2 })

/-- Drive apr_dir_read until it stops reporting entries, collecting the
reported names.  `fuel` bounds the number of calls; any
`fuel ≥ pending.length + 1` is enough for a freshly opened handle. -/
def apr_dir_read_all : Nat → DirState → List String
  | 0, _ => []
  | fuel + 1, d =>
    match apr_dir_read_model d with
    | (Status.success, some nm, d2) => nm :: apr_dir_read_all fuel d2
    | _ => []

/-- The DirState right after apr_dir_open succeeded on a directory whose
native enumeration yields `first :: rest` (FindFirstFileExW prefetches
`first` and apr_dir_open leaves bof set). -/
def dir_open_state (rootlen : Nat) (first : String) (rest : List String) : DirState :=
  { rootlen := rootlen, bof := true, entry := first, pending := rest }

/- ------------------------------------------------------------------ -/
/- sendrecv.c: collapse_iovec / apr_socket_sendfile                    -/
/- ------------------------------------------------------------------ -/

/-- MAX_SEGMENT_SIZE (sendrecv.c:36). -/
def MAX_SEGMENT_SIZE : Nat := 65536

/-- sizeof(hdtrbuf) (sendrecv.c:235). -/
def HDTRBUF_SIZE : Nat := 4096

/-- 2^32, the modulus of a DWORD cast. -/
def DWORD_MOD : Nat := 4294967296

/-- 2^64, the modulus of size_t arithmetic. -/
def SIZE_T_MOD : Nat := 18446744073709551616

/-- The header/trailer vectors of an apr_hdtr_t, as lists of iovec
lengths. -/
structure HdtrT where
  headers : List Nat
  trailers : List Nat
deriving DecidableEq, Repr

def hdtr_headers : Option HdtrT → List Nat
  | some h => h.headers
  | none => []

def hdtr_trailers : Option HdtrT → List Nat
  | some h => h.trailers
  | none => []

/-- collapse_iovec (sendrecv.c:178-205), tracking only the `*len`
out-parameter: `lenInit` is `*len` on entry.  A one-element vector is
passed through without the buffer-size check (the source just points
`*off` at it); otherwise the summed length must fit `buflen` or the
function reports APR_INCOMPLETE with `*len` reset to 0. -/
def collapse_iovec (iovec : List Nat) (lenInit : Nat) (buflen : Nat) : Status × Nat :=
  match iovec with
  | [v] => (Status.success, v)
  | _ =>
    if lenInit + iovec.sum > buflen then (Status.incomplete, 0)
    else (Status.success, lenInit + iovec.sum)

/-- The TransmitFile while loop of apr_socket_sendfile
(sendrecv.c:329-421) under the model in which every native call
succeeds and every wait completes: TransmitFile goes asynchronous,
the event wait returns, and WSAGetOverlappedResult reports the raw count
`xmitbytes + HeadLength + TailLength` for the segment.  State:

* `bytes_to_send`: file bytes still to transmit;
* `len`: the running `*len` total (file plus header/trailer bytes);
* `file_total`: the running file-only total (`*len` before the
  header/trailer re-add, i.e. the sum of the adjusted `xmitbytes`);
* `tfbHead`/`tfbTail`: `tfb.HeadLength`/`tfb.TailLength` (DWORDs);
* `ptfb`: whether `ptfb` currently points at `tfb`;
* `sendv_trailers`: the punt-trailers-to-sendv flag.

On the last segment the trailers are collapsed into the remainder of
`hdtrbuf`; the `sizeof(hdtrbuf) - ptfb->HeadLength` buffer size is
size_t arithmetic and the `tfb.TailLength = (DWORD)tail_length` store is
a DWORD cast, both modelled with the explicit moduli.  After a
successful segment the loop adds the head/tail contribution back to
`*len` once and resets `tfb`/`ptfb`.  `fuel` bounds the number of
iterations; any `fuel ≥ bytes_to_send` behaves like the C loop.
Returns (final `*len`, final file-only total, sendv_trailers). -/
def sendfile_loop (trailers : List Nat) (fuel : Nat) (bytes_to_send len file_total : Nat)
    (tfbHead tfbTail : Nat) (ptfb : Bool) (sendv_trailers : Bool) : Nat × Nat × Bool :=
  match fuel with
  | 0 => (len, file_total, sendv_trailers)
  | fuel + 1 =>
    if bytes_to_send = 0 then (len, file_total, sendv_trailers)
    else if bytes_to_send > MAX_SEGMENT_SIZE then
      sendfile_loop trailers fuel (bytes_to_send - MAX_SEGMENT_SIZE)
        (len + (MAX_SEGMENT_SIZE + (if ptfb then tfbHead + tfbTail else 0)))
        (file_total + MAX_SEGMENT_SIZE)
        (if ptfb then 0 else tfbHead) (if ptfb then 0 else tfbTail) false sendv_trailers
    else
      match
        (if trailers = [] then (tfbTail, ptfb, sendv_trailers)
         else
           match collapse_iovec trailers tfbTail
               ((HDTRBUF_SIZE + SIZE_T_MOD - tfbHead) % SIZE_T_MOD) with
           | (rv, tl) => (tl % DWORD_MOD, true, sendv_trailers || (rv == Status.incomplete)))
      with
      | (tl, p, sv) =>
        sendfile_loop trailers fuel 0
          (len + (bytes_to_send + (if p then tfbHead + tl else 0)))
          (file_total + bytes_to_send)
          (if p then 0 else tfbHead) (if p then 0 else tl) false sv

/-- apr_socket_sendfile (sendrecv.c:220-433) under the all-native-calls-
succeed model (so the WSAIoctl lookup succeeds, every apr_socket_sendv
fallback transfers its whole vector — valid because the theorems below
keep the vector totals within a DWORD — and every TransmitFile segment
completes).  `bytes_to_send` is `*len` on entry; returns
(status, `*len` on exit, file-only bytes sent).  The zero-length-file
degenerate case falls back to plain vectored sends; otherwise headers
are collapsed into `hdtrbuf` (or punted to apr_socket_sendv on
APR_INCOMPLETE), the segment loop runs, and trailers that did not fit
the staging buffer are sent by apr_socket_sendv at the end. -/
def apr_socket_sendfile (bytes_to_send : Nat) (hdtr : Option HdtrT) : Status × Nat × Nat :=
  if bytes_to_send = 0 ∧ hdtr.isSome then
    (Status.success, (hdtr_headers hdtr).sum + (hdtr_trailers hdtr).sum, 0)
  else
    match
      (if hdtr_headers hdtr = [] then (0, 0, false)
       else
         match collapse_iovec (hdtr_headers hdtr) 0 HDTRBUF_SIZE with
         | (Status.incomplete, _) => ((hdtr_headers hdtr).sum, 0, false)
         | (_, hl) => (0, hl % DWORD_MOD, true))
    with
    | (len0, hd0, p0) =>
      match sendfile_loop (hdtr_trailers hdtr) bytes_to_send bytes_to_send len0 0 hd0 0
          p0 false with
      | (len1, ftot, sv) =>
        (Status.success, (if sv then len1 + (hdtr_trailers hdtr).sum else len1), ftot)

/- ------------------------------------------------------------------ -/
/- filestat.c: data model                                              -/
/- ------------------------------------------------------------------ -/

/-- Modelled from the spec: the APR_FINFO_* wanted/valid bitmask (public
header constants, not under src/), embedded as one Boolean per field
bit.  Bitwise or/and-not/subset on the C masks become the pointwise
operations below. -/
structure FinfoMask where
  link : Bool := false
  atime : Bool := false
  ctime : Bool := false
  mtime : Bool := false
  size : Bool := false
  csize : Bool := false
  dev : Bool := false
  inode : Bool := false
  nlink : Bool := false
  ftype : Bool := false
  user : Bool := false
  group : Bool := false
  uprot : Bool := false
  gprot : Bool := false
  wprot : Bool := false
  name : Bool := false
deriving DecidableEq, Repr

/-- Bitwise or of two masks. -/
def FinfoMask.union (a b : FinfoMask) : FinfoMask where
  link := a.link || b.link
  atime := a.atime || b.atime
  ctime := a.ctime || b.ctime
  mtime := a.mtime || b.mtime
  size := a.size || b.size
  csize := a.csize || b.csize
  dev := a.dev || b.dev
  inode := a.inode || b.inode
  nlink := a.nlink || b.nlink
  ftype := a.ftype || b.ftype
  user := a.user || b.user
  group := a.group || b.group
  uprot := a.uprot || b.uprot
  gprot := a.gprot || b.gprot
  wprot := a.wprot || b.wprot
  name := a.name || b.name

/-- `a &= ~b` on masks. -/
def FinfoMask.diff (a b : FinfoMask) : FinfoMask where
  link := a.link && !b.link
  atime := a.atime && !b.atime
  ctime := a.ctime && !b.ctime
  mtime := a.mtime && !b.mtime
  size := a.size && !b.size
  csize := a.csize && !b.csize
  dev := a.dev && !b.dev
  inode := a.inode && !b.inode
  nlink := a.nlink && !b.nlink
  ftype := a.ftype && !b.ftype
  user := a.user && !b.user
  group := a.group && !b.group
  uprot := a.uprot && !b.uprot
  gprot := a.gprot && !b.gprot
  wprot := a.wprot && !b.wprot
  name := a.name && !b.name

/-- Whether every bit of `a` is set in `b`. -/
def FinfoMask.subset (a b : FinfoMask) : Bool :=
  (!a.link || b.link) && (!a.atime || b.atime) && (!a.ctime || b.ctime) &&
  (!a.mtime || b.mtime) && (!a.size || b.size) && (!a.csize || b.csize) &&
  (!a.dev || b.dev) && (!a.inode || b.inode) && (!a.nlink || b.nlink) &&
  (!a.ftype || b.ftype) && (!a.user || b.user) && (!a.group || b.group) &&
  (!a.uprot || b.uprot) && (!a.gprot || b.gprot) && (!a.wprot || b.wprot) &&
  (!a.name || b.name)

/-- Whether the mask has no bit set. -/
def FinfoMask.isEmpty (a : FinfoMask) : Bool :=
  !a.link && !a.atime && !a.ctime && !a.mtime && !a.size && !a.csize &&
  !a.dev && !a.inode && !a.nlink && !a.ftype && !a.user && !a.group &&
  !a.uprot && !a.gprot && !a.wprot && !a.name

/-- APR_FINFO_MIN = TYPE | SIZE | ATIME | CTIME | MTIME. -/
def APR_FINFO_MIN : FinfoMask :=
  { ftype := true, size := true, atime := true, ctime := true, mtime := true }

/-- APR_FINFO_IDENT = DEV | INODE. -/
def APR_FINFO_IDENT : FinfoMask := { dev := true, inode := true }

/-- APR_FINFO_OWNER = USER | GROUP. -/
def APR_FINFO_OWNER : FinfoMask := { user := true, group := true }

/-- APR_FINFO_PROT = UPROT | GPROT | WPROT. -/
def APR_FINFO_PROT : FinfoMask := { uprot := true, gprot := true, wprot := true }

/-- The single APR_FINFO_SIZE bit, against which apr_file_info_get
compares `wanted` for its fast path. -/
def APR_FINFO_SIZE_BIT : FinfoMask := { size := true }

/-- The apr_filetype_e values that occur in these files; `nofile` is the
zero value left by memset. -/
inductive FileType where
  | nofile
  | reg
  | dir
  | chr
  | pipe
  | lnk
deriving DecidableEq, Repr

/-- Modelled from the spec: the APR_FPROT_* world permission bits and
the protection-scope shifts (filestat.c:71-75 defines the shifts; the
bit values come from the public header). -/
def APR_FPROT_WEXECUTE : Nat := 1

def APR_FPROT_WWRITE : Nat := 2

def APR_FPROT_WREAD : Nat := 4

/-- APR_FREADONLY, the private read-only flag stored in
`finfo->protection` without a valid bit (public header value). -/
def APR_FREADONLY : Nat := 268435456

def FILE_READ_DATA : Nat := 1

def FILE_WRITE_DATA : Nat := 2

def FILE_EXECUTE : Nat := 32

def prot_scope_world : Nat := 0

def prot_scope_group : Nat := 4

def prot_scope_user : Nat := 8

/-- The apr_finfo_t record, with the valid-fields mask and the fields
the four files read or write.  `userSid`/`groupSid` model the PSID
pointers. -/
structure Finfo where
  valid : FinfoMask := {}
  protection : Nat := 0
  filetype : FileType := FileType.nofile
  size : Nat := 0
  csize : Nat := 0
  atime : Nat := 0
  ctime : Nat := 0
  mtime : Nat := 0
  inode : Nat := 0
  device : Nat := 0
  nlink : Nat := 0
  userSid : Option Nat := none
  groupSid : Option Nat := none
  name : Option String := none
deriving DecidableEq, Repr

/-- The portion of a WIN32_FILE_ATTRIBUTE_DATA / WIN32_FIND_DATAW /
BY_HANDLE_FILE_INFORMATION that filestat.c reads: attribute bits, the
reparse tag (`dwReserved0`, meaningful for find data), whether the raw
last-write FILETIME is zero (the `warn` test), and the converted times
and size. -/
structure WinInfo where
  readonlyAttr : Bool := false
  directoryAttr : Bool := false
  deviceAttr : Bool := false
  reparseAttr : Bool := false
  reserved0 : Nat := 0
  lastWriteRawZero : Bool := false
  atime : Nat := 0
  ctime : Nat := 0
  mtime : Nat := 0
  size : Nat := 0
deriving DecidableEq, Repr

/-- Native filesystem calls issued by the filestat.c functions (used in
traces). -/
inductive FsCall where
  | fileOpen
  | getFileSize
  | getInfoByHandle
  | getFileType
  | getAttrEx
  | findFirst
  | findFirstTag
  | getFullPath
  | secQuery
  | getCSize
deriving DecidableEq, Repr

/- ------------------------------------------------------------------ -/
/- filestat.c: test_safe_name                                          -/
/- ------------------------------------------------------------------ -/

/-- Modelled from the spec: the IS_FNCHAR character class (defined in a
header not under src/): ordinary file-name characters, excluding the
wildcard and reserved characters and control characters; `/` and `\`
are not file-name characters but test_safe_name allows them
explicitly. -/
def IS_FNCHAR (c : Char) : Bool :=
  decide (32 ≤ c.toNat) &&
  !(c == '*' || c == '?' || c == '<' || c == '>' || c == '"' || c == '|' ||
    c == ':' || c == '/' || c == '\\')

/-- apr_isalpha. -/
def apr_isalpha (c : Char) : Bool :=
  (decide ('A' ≤ c) && decide (c ≤ 'Z')) || (decide ('a' ≤ c) && decide (c ≤ 'z'))

/-- The scanning loop of test_safe_name (filestat.c:43-51): `rv` is the
running result; a wildcard records APR_EPATHWILD and keeps scanning, any
other unacceptable character returns APR_EBADPATH at once. -/
def test_safe_name_loop : List Char → Status → Status
  | [], rv => rv
  | c :: rest, rv =>
    if !IS_FNCHAR c && c != '\\' && c != '/' then
      if c == '?' || c == '*' then test_safe_name_loop rest Status.epathwild
      else Status.ebadpath
    else test_safe_name_loop rest rv

/-- test_safe_name (filestat.c:33-53): skip a leading drive-letter colon,
then scan. -/
def test_safe_name (fname : String) : Status :=
  match fname.data with
  | a :: b :: rest =>
    if apr_isalpha a && b == ':' then test_safe_name_loop rest Status.success
    else test_safe_name_loop (a :: b :: rest) Status.success
  | l => test_safe_name_loop l Status.success

/-- Modelled from the spec: the path/text-encoding collaborator
utf8_to_unicode_path (i18n code, not under src/); conversion fails with
APR_ENAMETOOLONG when the name does not fit the destination buffer of
`maxLen` wide characters. -/
def utf8_to_unicode_path (maxLen : Nat) (s : String) : Status :=
  if s.length ≥ maxLen then Status.enametoolong else Status.success

/- ------------------------------------------------------------------ -/
/- filestat.c: reparse_point_is_link / fillin_fileinfo                 -/
/- ------------------------------------------------------------------ -/

/-- IsReparseTagNameSurrogate: bit 29 of the reparse tag. -/
def IsReparseTagNameSurrogate (tag : Nat) : Bool := tag.testBit 29

/-- Environment for the by-name branch of reparse_point_is_link: the
FindFirstFileExW outcome, `some tag` giving the found `dwReserved0`. -/
structure ReparseEnv where
  findTag : Option Nat := none
deriving DecidableEq, Repr

/-- reparse_point_is_link (filestat.c:215-257).  Without the reparse
attribute the answer is no.  For find data the tag is `dwReserved0`;
otherwise the true tag is recovered by a FindFirstFileExW on the name,
guarded by test_safe_name and the unicode conversion, any failure
answering no.  Returns the answer and the native calls made. -/
def reparse_point_is_link (renv : ReparseEnv) (w : WinInfo) (finddata : Bool)
    (fname : String) : Bool × List FsCall :=
  if !w.reparseAttr then (false, [])
  else if finddata then (IsReparseTagNameSurrogate w.reserved0, [])
  else if test_safe_name fname ≠ Status.success then (false, [])
  else if utf8_to_unicode_path APR_PATH_MAX fname ≠ Status.success then (false, [])
  else
    match renv.findTag with
    | none => (false, [FsCall.findFirstTag])
    | some tag => (IsReparseTagNameSurrogate tag, [FsCall.findFirstTag])

/-- fillin_fileinfo (filestat.c:380-446): memset the finfo, copy times
and size, classify the file type (link test only when wanted), record
the private APR_FREADONLY protection flag *without* any valid bit, set
valid to APR_FINFO_MIN, and add the LINK bit unless called by-handle
without LINK wanted.  Returns (finfo, warn, native-call trace). -/
def fillin_fileinfo (renv : ReparseEnv) (w : WinInfo) (byhandle : Bool) (finddata : Bool)
    (fname : String) (wanted : FinfoMask) : Finfo × Bool × List FsCall :=
  match (if wanted.link then reparse_point_is_link renv w finddata fname
         else (false, [])) with
  | (isLink, tr) =>
    match
      (if wanted.link && isLink then (FileType.lnk, false)
       else if w.directoryAttr then (FileType.dir, false)
       else if w.deviceAttr then (FileType.chr, false)
       else (FileType.reg, w.lastWriteRawZero && w.size == 0))
    with
    | (ft, warn) =>
      ({ atime := w.atime, ctime := w.ctime, mtime := w.mtime, size := w.size,
         filetype := ft,
         protection := if w.readonlyAttr then APR_FREADONLY else 0,
         valid := { APR_FINFO_MIN with link := !byhandle || wanted.link } },
       warn, tr)

/- ------------------------------------------------------------------ -/
/- filestat.c: convert_prot / guess_protection_bits / resolve_prot /
   more_finfo                                                          -/
/- ------------------------------------------------------------------ -/

/-- convert_prot (filestat.c:77-91): map an ACCESS_MASK to world-scope
permission bits, shifted into the given scope. -/
def convert_prot (acc : Nat) (scope : Nat) : Nat :=
  (((if acc &&& FILE_EXECUTE ≠ 0 then APR_FPROT_WEXECUTE else 0) |||
    (if acc &&& FILE_WRITE_DATA ≠ 0 then APR_FPROT_WWRITE else 0) |||
    (if acc &&& FILE_READ_DATA ≠ 0 then APR_FPROT_WREAD else 0)) <<< scope)

/-- guess_protection_bits (filestat.c:193-213): synthesize world bits
from the read-only flag, replicate them into group and user scope, mark
all three protection fields valid, and report APR_INCOMPLETE iff some
wanted bit is still missing. -/
def guess_protection_bits (finfo : Finfo) (wanted : FinfoMask) : Finfo × Status :=
  match
    (if finfo.protection &&& APR_FREADONLY ≠ 0 then
       finfo.protection ||| (APR_FPROT_WREAD ||| APR_FPROT_WEXECUTE)
     else
       finfo.protection ||| (APR_FPROT_WREAD ||| APR_FPROT_WEXECUTE ||| APR_FPROT_WWRITE))
  with
  | p0 =>
    match { finfo with
            protection := p0 ||| ((p0 <<< prot_scope_group) ||| (p0 <<< prot_scope_user)),
            valid := finfo.valid.union APR_FINFO_PROT } with
    | f =>
      (f, if (wanted.diff f.valid).isEmpty then Status.success else Status.incomplete)

/-- Environment for the security tier of more_finfo: the world-SID
allocation, the GetNamedSecurityInfoW/GetSecurityInfo outcome (whether
it succeeded and which of the requested pointers came back non-NULL),
the three GetEffectiveRightsFromAclW outcomes, and the
compressed-size query. -/
structure SecEnv where
  osLevelNT : Bool := true
  secOk : Bool := false
  hasUser : Bool := false
  hasGrp : Bool := false
  hasDacl : Bool := false
  uSid : Nat := 0
  gSid : Nat := 0
  worldOk : Bool := false
  uRightsOk : Bool := false
  gRightsOk : Bool := false
  wRightsOk : Bool := false
  uAcc : Nat := 0
  gAcc : Nat := 0
  wAcc : Nat := 0
  csizeOk : Bool := false
  csizeVal : Nat := 0
deriving DecidableEq, Repr

/-- resolve_prot (filestat.c:93-142): for each requested scope whose
prerequisite is available (a valid user/group SID, or the world SID
whose lazy allocation is modelled by `worldOk`), query the effective
rights and on success fold them into `protection` and mark the scope
valid. -/
def resolve_prot (env : SecEnv) (finfo : Finfo) (wanted : FinfoMask) : Finfo :=
  let f1 :=
    if wanted.uprot && finfo.valid.user && env.uRightsOk then
      { finfo with protection := finfo.protection ||| convert_prot env.uAcc prot_scope_user,
                   valid := { finfo.valid with uprot := true } }
    else finfo
  let f2 :=
    if wanted.gprot && f1.valid.group && env.gRightsOk then
      { f1 with protection := f1.protection ||| convert_prot env.gAcc prot_scope_group,
                valid := { f1.valid with gprot := true } }
    else f1
  if wanted.wprot && env.worldOk && env.wRightsOk then
    { f2 with protection := f2.protection ||| convert_prot env.wAcc prot_scope_world,
              valid := { f2.valid with wprot := true } }
  else f2

/-- more_finfo (filestat.c:259-367).  Below WinNT everything degrades to
guess_protection_bits.  Otherwise, when protection or ownership is
wanted, one security query fetches the requested owner/group/DACL; a
present DACL feeds resolve_prot, an absent one with protection wanted
feeds guess_protection_bits (status discarded).  When the compressed
size is wanted for a regular file a dedicated size query may add CSIZE.
The status is APR_INCOMPLETE iff a wanted bit is still missing.
(The C whatfile distinction only selects between the by-name and
by-handle flavors of the same native queries; both flavors are
represented by the same environment fields here.) -/
def more_finfo (env : SecEnv) (finfo : Finfo) (wanted : FinfoMask) :
    Finfo × Status × List FsCall :=
  if !env.osLevelNT then
    ((guess_protection_bits finfo wanted).1, (guess_protection_bits finfo wanted).2, [])
  else
    let protWanted := wanted.uprot || wanted.gprot || wanted.wprot
    let f1 :=
      if env.secOk && (wanted.user || wanted.uprot) && env.hasUser then
        { finfo with userSid := some env.uSid,
                     valid := { finfo.valid with user := true } }
      else finfo
    let f2 :=
      if env.secOk && (wanted.group || wanted.gprot) && env.hasGrp then
        { f1 with groupSid := some env.gSid,
                  valid := { f1.valid with group := true } }
      else f1
    let f3 :=
      if env.secOk && protWanted && env.hasDacl then resolve_prot env f2 wanted
      else if protWanted then (guess_protection_bits f2 wanted).1
      else f2
    let tr1 :=
      if protWanted || wanted.user || wanted.group then [FsCall.secQuery] else []
    let f4 :=
      if wanted.csize && f3.filetype == FileType.reg then
        (if env.csizeOk then
           { f3 with csize := env.csizeVal, valid := { f3.valid with csize := true } }
         else f3)
      else f3
    let tr2 := if wanted.csize && f3.filetype == FileType.reg then [FsCall.getCSize] else []
    (f4,
     (if (wanted.diff f4.valid).isEmpty then Status.success else Status.incomplete),
     tr1 ++ tr2)

/- ------------------------------------------------------------------ -/
/- filestat.c: apr_file_info_get                                       -/
/- ------------------------------------------------------------------ -/

/-- The extra fields of BY_HANDLE_FILE_INFORMATION. -/
structure HandleInfo where
  w : WinInfo := {}
  inode : Nat := 0
  device : Nat := 0
  nlink : Nat := 0
deriving DecidableEq, Repr

/-- Environment for apr_file_info_get on an open file: the buffered
flag and flush outcome, the GetFileSizeEx and
GetFileInformationByHandle outcomes, the GetFileType result
(0 = unknown/failed, 2 = FILE_TYPE_CHAR, 3 = FILE_TYPE_PIPE), and the
environments for the link test and the more_finfo escalation. -/
structure HandleEnv where
  buffered : Bool := false
  flushResult : Status := Status.success
  getFileSizeEx : Option Nat := none
  sizeErr : Nat := 0
  getInfoByHandle : Option HandleInfo := none
  infoErr : Nat := 0
  fileTypeRes : Nat := 0
  renv : ReparseEnv := {}
  secEnv : SecEnv := {}
deriving DecidableEq, Repr

/-- apr_file_info_get (filestat.c:449-578).  `fIn` is the caller's finfo
memory on entry (uninitialized in C); returns (status, finfo on exit,
native-call trace).  The fast path for `wanted == APR_FINFO_SIZE` only
writes size and valid (no memset); the full path memsets the finfo,
fills the MIN fields plus the private read-only protection flag, adds
LINK when wanted, refines a REG classification through GetFileType,
adds the identity fields, and escalates to more_finfo when wanted bits
other than NAME remain. -/
def apr_file_info_get (env : HandleEnv) (wanted : FinfoMask) (fname : String)
    (fIn : Finfo) : Status × Finfo × List FsCall :=
  if env.buffered ∧ env.flushResult ≠ Status.success then (env.flushResult, fIn, [])
  else if wanted = APR_FINFO_SIZE_BIT then
    match env.getFileSizeEx with
    | none => (Status.osError env.sizeErr, fIn, [FsCall.getFileSize])
    | some sz =>
      (Status.success, { fIn with size := sz, valid := APR_FINFO_SIZE_BIT },
       [FsCall.getFileSize])
  else
    match env.getInfoByHandle with
    | none => (Status.osError env.infoErr, fIn, [FsCall.getInfoByHandle])
    | some hi =>
      let rp := if wanted.link then reparse_point_is_link env.renv hi.w false fname
                else (false, [])
      let ft0 :=
        if wanted.link && rp.1 then FileType.lnk
        else if hi.w.directoryAttr then FileType.dir
        else if hi.w.deviceAttr then FileType.chr
        else FileType.reg
      let ft :=
        if ft0 == FileType.reg then
          (if env.fileTypeRes ≠ 0 then
             (if env.fileTypeRes = 2 then FileType.chr
              else if env.fileTypeRes = 3 then FileType.pipe
              else ft0)
           else ft0)
        else ft0
      let trType := if ft0 == FileType.reg then [FsCall.getFileType] else []
      let f3 : Finfo :=
        { atime := hi.w.atime, ctime := hi.w.ctime, mtime := hi.w.mtime,
          size := hi.w.size, filetype := ft,
          protection := if hi.w.readonlyAttr then APR_FREADONLY else 0,
          inode := hi.inode, device := hi.device, nlink := hi.nlink,
          valid := { APR_FINFO_MIN with
                     link := wanted.link,
                     dev := true,
                     inode := true,
                     nlink := true } }
      if !((wanted.diff f3.valid).diff { name := true }).isEmpty then
        let mf := more_finfo env.secEnv f3 (wanted.diff f3.valid)
        (mf.2.1, mf.1, [FsCall.getInfoByHandle] ++ rp.2 ++ trType ++ mf.2.2)
      else
        (Status.success, f3, [FsCall.getInfoByHandle] ++ rp.2 ++ trType)

/- ------------------------------------------------------------------ -/
/- filestat.c: resolve_ident / apr_stat                                -/
/- ------------------------------------------------------------------ -/

/-- Environment for apr_stat: the two apr_file_open attempts of
resolve_ident (modelled from the spec: apr_file_open lives outside
src/; `Status.success` means the open succeeded), the by-handle query
environment, and the native outcomes of the by-attributes path:
GetFileAttributesExW, FindFirstFileExW (find data plus the true
cFileName), and GetFullPathNameW (the returned wide path as characters
plus the returned filepart offset). -/
structure StatEnv where
  open1 : Status := Status.success
  open2 : Status := Status.success
  handleEnv : HandleEnv := {}
  getAttrEx : Option WinInfo := none
  attrErr : Nat := 0
  findFirst : Option (WinInfo × String) := none
  findErr : Nat := 0
  fullPath : Option (List Char × Option Nat) := none
  renv : ReparseEnv := {}
  secEnv : SecEnv := {}
deriving DecidableEq, Repr

/-- resolve_ident (filestat.c:144-191): open the file and query by
handle; an APR_EACCES first open with protection/ownership wanted is
retried without READ_CONTROL and with those fields dropped from the
request.  Any result other than APR_SUCCESS/APR_INCOMPLETE is returned
as-is; otherwise the LINK bit is granted when wanted. -/
def resolve_ident (env : StatEnv) (fname : String) (wanted : FinfoMask)
    (fIn : Finfo) : Status × Finfo × List FsCall :=
  match
    (if env.open1 = Status.success then
       match apr_file_info_get env.handleEnv wanted fname fIn with
       | (rv, f, tr) => (rv, f, [FsCall.fileOpen] ++ tr)
     else if env.open1 = Status.eacces ∧
         (wanted.uprot || wanted.gprot || wanted.wprot || wanted.user || wanted.group) then
       if env.open2 = Status.success then
         match apr_file_info_get env.handleEnv
             (wanted.diff (APR_FINFO_PROT.union APR_FINFO_OWNER)) fname fIn with
         | (rv, f, tr) => (rv, f, [FsCall.fileOpen, FsCall.fileOpen] ++ tr)
       else (env.open2, fIn, [FsCall.fileOpen, FsCall.fileOpen])
     else (env.open1, fIn, [FsCall.fileOpen]))
  with
  | (rv, f, tr) =>
    if rv ≠ Status.success ∧ rv ≠ Status.incomplete then (rv, f, tr)
    else if wanted.link then (rv, { f with valid := { f.valid with link := true } }, tr)
    else (rv, f, tr)

/-- Whether a separator occurs in the character list (the tmpoff scan of
apr_stat's device-name check, filestat.c:686-692). -/
def scan_for_sep : List Char → Bool
  | [] => false
  | c :: rest => if c == '\\' || c == '/' then true else scan_for_sep rest

/-- The GetFullPathNameW block of apr_stat (filestat.c:665-701), entered
when fillin_fileinfo warned: a failing call clears the TYPE valid bit;
a `\\.\` full path whose filepart starts right after the prefix — or
a NULL filepart with no further separator — reclassifies the file as a
character device. -/
def full_path_chr_check (fullPath : Option (List Char × Option Nat)) (f : Finfo) : Finfo :=
  match fullPath with
  | none => { f with valid := { f.valid with ftype := false } }
  | some (tmpname, tmpoff) =>
    if tmpname.take 4 = ['\\', '\\', '.', '\\'] then
      if tmpoff = some 4 then { f with filetype := FileType.chr }
      else if tmpoff = none then
        if scan_for_sep (tmpname.drop 4) then f
        else { f with filetype := FileType.chr }
      else f
    else f

/-- The tail of apr_stat after the by-attributes data has been obtained
(filestat.c:661-716): unless resolve_ident already produced an
incomplete finfo, run fillin_fileinfo (escalating to the
GetFullPathNameW check when it warns); attach the found true name; and
if wanted bits remain, finish through more_finfo. -/
def apr_stat_fill (env : StatEnv) (fname : String) (wanted : FinfoMask) (fPrev : Finfo)
    (identIncomplete : Bool) (wi : WinInfo) (finddata : Bool) (filename : Option String)
    (tr : List FsCall) : Status × Finfo × List FsCall :=
  match
    (if !identIncomplete then
       match fillin_fileinfo env.renv wi false finddata fname wanted with
       | (f1, warn, trf) =>
         if warn then (full_path_chr_check env.fullPath f1, trf ++ [FsCall.getFullPath])
         else (f1, trf)
     else (fPrev, []))
  with
  | (f1, trf) =>
    match
      (match filename with
       | some nm => { f1 with name := some nm, valid := { f1.valid with name := true } }
       | none => f1)
    with
    | f2 =>
      if !(wanted.diff f2.valid).isEmpty then
        match more_finfo env.secEnv f2 (wanted.diff f2.valid) with
        | (f3, st, tr3) => (st, f3, tr ++ trf ++ tr3)
      else (Status.success, f2, tr ++ trf)

/-- The by-attributes part of apr_stat (filestat.c:630-716), reached
when resolve_ident did not fully answer: convert the path, then either
query attributes directly (name not wanted) or — after the
test_safe_name guard — recover the true name with FindFirstFileExW. -/
def apr_stat_rest (env : StatEnv) (fname : String) (wanted : FinfoMask) (f : Finfo)
    (identIncomplete : Bool) (tr0 : List FsCall) : Status × Finfo × List FsCall :=
  if utf8_to_unicode_path APR_PATH_MAX fname ≠ Status.success then
    (utf8_to_unicode_path APR_PATH_MAX fname, f, tr0)
  else if !wanted.name then
    match env.getAttrEx with
    | none => (Status.osError env.attrErr, f, tr0 ++ [FsCall.getAttrEx])
    | some wi =>
      apr_stat_fill env fname wanted f identIncomplete wi false none
        (tr0 ++ [FsCall.getAttrEx])
  else if test_safe_name fname ≠ Status.success then
    (test_safe_name fname, f, tr0)
  else
    match env.findFirst with
    | none => (Status.osError env.findErr, f, tr0 ++ [FsCall.findFirst])
    | some (wi, cfname) =>
      if cfname.length ≥ APR_FILE_MAX * 3 + 1 then
        (Status.enametoolong, f, tr0 ++ [FsCall.findFirst])
      else
        apr_stat_fill env fname wanted f identIncomplete wi true (some cfname)
          (tr0 ++ [FsCall.findFirst])

/-- apr_stat (filestat.c:586-717).  `fIn` is the caller's finfo memory
on entry.  Overlong paths are rejected up front; the open-by-handle
resolve_ident branch runs when identity/link-count fields are wanted or
when a true (symlink-resolving) stat is wanted (LINK not set), its
APR_SUCCESS returning immediately and its APR_INCOMPLETE narrowing the
wanted set; everything else proceeds by attributes or find data. -/
def apr_stat (env : StatEnv) (fname : String) (wanted : FinfoMask) (fIn : Finfo) :
    Status × Finfo × List FsCall :=
  if fname.length ≥ APR_PATH_MAX then (Status.enametoolong, fIn, [])
  else if wanted.dev || wanted.inode || wanted.nlink || !wanted.link then
    match resolve_ident env fname wanted fIn with
    | (identRv, f, tr) =>
      if identRv = Status.success then (identRv, f, tr)
      else if identRv = Status.incomplete then
        apr_stat_rest env fname (wanted.diff f.valid) f true tr
      else apr_stat_rest env fname wanted f false tr
  else apr_stat_rest env fname wanted fIn false []

/- ------------------------------------------------------------------ -/
/- Derived views used by the theorems                                  -/
/- ------------------------------------------------------------------ -/

/-- The stream of entries an open directory handle will still offer to
the skip loop: the prefetched entry first when still at
beginning-of-stream, then the native cursor's remainder. -/
def dir_cursor (d : DirState) : List String :=
  if d.bof then d.entry :: d.pending else d.pending

/-- The five always-cheap fields of a valid mask (the APR_FINFO_MIN
components), bundled for preservation lemmas. -/
def min_fields (v : FinfoMask) : Bool × Bool × Bool × Bool × Bool :=
  (v.ftype, v.size, v.atime, v.ctime, v.mtime)

/- ================================================================== -/
/- Theorems                                                            -/
/- ================================================================== -/

/-- The sendv pre-check passes exactly when the running total stays
within MAXDWORD. -/
theorem sendv_total_check_spec (vec : List Nat) (total : Nat) (h : total ≤ MAXDWORD) :
    sendv_total_check vec total = true ↔ total + vec.sum ≤ MAXDWORD := by
  induction vec generalizing total with
  | nil => simpa [sendv_total_check] using h
  | cons v rest ih =>
    simp only [sendv_total_check, List.sum_cons]
    split
    · next hv =>
      simp only [Bool.false_eq_true, false_iff, not_le]
      have hmax : MAXDWORD - total < v := hv
      omega
    · next hv =>
      have hv2 : v ≤ MAXDWORD - total := not_lt.mp hv
      rw [ih (total + v) (by omega)]
      omega

/-- C7: a buffer vector whose total byte count exceeds the DWORD
transfer-size maximum makes apr_socket_sendv fail up front with
APR_EINVAL, leaving `*nbytes` untouched and issuing no native send
call. -/
theorem sendv_overflow_einval (env : SendvEnv) (vec : List Nat) (nbytesIn : Nat)
    (hov : vec.sum > MAXDWORD) :
    apr_socket_sendv env vec nbytesIn = (Status.einval, nbytesIn, []) := by
  have hspec := sendv_total_check_spec vec 0 (Nat.zero_le _)
  have hfalse : sendv_total_check vec 0 = false := by
    rcases Bool.eq_false_or_eq_true (sendv_total_check vec 0) with hf | htt
    · exact absurd (hspec.mp hf) (by omega)
    · exact htt
  unfold apr_socket_sendv
  rw [if_pos hfalse]

/-- Witness for C7 at a concrete overflowing vector. -/
theorem sendv_overflow_einval_witness :
    apr_socket_sendv {} [4294967295, 1] 77 = (Status.einval, 77, []) :=
  sendv_overflow_einval {} [4294967295, 1] 77 (by decide)

/-- C8: a native receive that succeeds with zero bytes transferred on a
stream socket is reported as APR_EOF with length 0, not as a zero-length
success. -/
theorem recv_zero_is_eof (env : NetEnv) (lenIn : Nat) (h : env.result = some 0) :
    apr_socket_recv SockType.stream env lenIn = (Status.eof, 0) := by
  simp [apr_socket_recv, h]

/-- Witness for C8 at a concrete zero-byte receive. -/
theorem recv_zero_is_eof_witness :
    apr_socket_recv SockType.stream { result := some 0 } 512 = (Status.eof, 0) :=
  recv_zero_is_eof { result := some 0 } 512 rfl

/-- C9: apr_proc_mutex_child_init with a NULL fname returns APR_SUCCESS
without writing through the output pointer, so the caller's `*mutex`
variable keeps exactly its previous value. -/
theorem child_init_null_name_frame (env : MtxEnv) (mIn : Option ProcMutex) :
    apr_proc_mutex_child_init env mIn none = (Status.success, mIn) := rfl

/-- C10: whenever the native transfer call fails, apr_socket_send,
apr_socket_recv, apr_socket_sendto and apr_socket_recvfrom all report a
transferred length of exactly 0 alongside the wrapped native error,
never a stale caller-supplied value. -/
theorem error_len_zeroed (errCode : Nat) (st : SockType) (lenIn : Nat) :
    apr_socket_send { result := none, errCode := errCode } lenIn
        = (Status.osError errCode, 0) ∧
    apr_socket_recv st { result := none, errCode := errCode } lenIn
        = (Status.osError errCode, 0) ∧
    apr_socket_sendto { result := none, errCode := errCode } lenIn
        = (Status.osError errCode, 0) ∧
    apr_socket_recvfrom st { result := none, errCode := errCode } lenIn
        = (Status.osError errCode, 0) :=
  ⟨rfl, rfl, rfl, rfl⟩

/-- C4 counterexample: after a first successful apr_proc_mutex_destroy
the handle field still holds the old native handle (it is not cleared
to a sentinel), and a second destroy issues a second native CloseHandle
on that stale handle. -/
theorem mutex_destroy_idempotent_cex :
    (apr_proc_mutex_destroy {} ⟨some 7, none, true⟩).2.1.handle = some 7 ∧
    (apr_proc_mutex_destroy {}
        (apr_proc_mutex_destroy {} ⟨some 7, none, true⟩).2.1).2.2
      = [MtxCall.closeHandle 7] := by
  decide

/-- C4 amended: a first successful destroy cancels the pool cleanup
registration, so the registered pool cleanup performs no further native
release; but the handle field is left unchanged (no sentinel), and a
second explicit destroy issues another native CloseHandle on the stale
handle. -/
theorem mutex_destroy_single_release_amended (env : MtxEnv) (m m2 : ProcMutex)
    (tr : List MtxCall) (hd : Nat)
    (hh : m.handle = some hd)
    (h : apr_proc_mutex_destroy env m = (Status.success, m2, tr)) :
    m2.registered = false ∧
    pool_teardown_calls env m2 = [] ∧
    m2.handle = some hd ∧
    (apr_proc_mutex_destroy env m2).2.2 = [MtxCall.closeHandle hd] := by
  unfold apr_proc_mutex_destroy proc_mutex_cleanup at h
  rw [hh] at h
  by_cases hc : env.closeOk
  · simp only [hc, if_true, Prod.mk.injEq, true_and] at h
    obtain ⟨h2, h3⟩ := h
    subst h2
    refine ⟨rfl, by simp [pool_teardown_calls], by simpa using hh, ?_⟩
    unfold apr_proc_mutex_destroy proc_mutex_cleanup
    simp [hh, hc]
  · simp [hc] at h

/-- Witness for the C4 amended theorem at a concrete mutex. -/
theorem mutex_destroy_single_release_amended_witness :
    (⟨some 7, none, false⟩ : ProcMutex).registered = false ∧
    pool_teardown_calls {} ⟨some 7, none, false⟩ = [] ∧
    (⟨some 7, none, false⟩ : ProcMutex).handle = some 7 ∧
    (apr_proc_mutex_destroy {} ⟨some 7, none, false⟩).2.2 = [MtxCall.closeHandle 7] :=
  mutex_destroy_single_release_amended {} ⟨some 7, none, true⟩ ⟨some 7, none, false⟩
    [MtxCall.closeHandle 7] 7 rfl (by decide)

/-- apr_dir_make returns one of three shapes: already-exists (state
unchanged, path present), missing parent (state unchanged), or success
(path added). -/
theorem apr_dir_make_cases (fs : Fs) (p : DirPath) :
    (p ∈ fs.dirs ∧ apr_dir_make fs p = (Status.eexist, fs)) ∨
    apr_dir_make fs p = (Status.enoent, fs) ∨
    apr_dir_make fs p = (Status.success, ⟨p :: fs.dirs⟩) := by
  unfold apr_dir_make CreateDirectoryW
  split
  · exact Or.inl ⟨by assumption, rfl⟩
  · split
    · exact Or.inr (Or.inl rfl)
    · exact Or.inr (Or.inr rfl)

/-- An existing path makes apr_dir_make report already-exists and leave
the state unchanged. -/
theorem apr_dir_make_of_mem (fs : Fs) (p : DirPath) (h : p ∈ fs.dirs) :
    apr_dir_make fs p = (Status.eexist, fs) := by
  unfold apr_dir_make CreateDirectoryW
  rw [if_pos h]

/-- A successful apr_dir_make_recursive leaves the path present in the
resulting filesystem. -/
theorem apr_dir_make_recursive_mem (fs fs2 : Fs) (p : DirPath)
    (h : apr_dir_make_recursive fs p = (Status.success, fs2)) : p ∈ fs2.dirs := by
  unfold apr_dir_make_recursive at h
  rcases apr_dir_make_cases fs p with ⟨hmem, hmk⟩ | hmk | hmk
  · rw [hmk] at h
    simp at h
    exact h ▸ hmem
  · rw [hmk] at h
    simp only [if_pos rfl] at h
    rcases hpar : dir_make_parent p.length fs p with ⟨rv2, fs3⟩
    rw [hpar] at h
    by_cases hgood : rv2 = Status.success ∨ rv2 = Status.eexist
    · rw [if_pos hgood] at h
      rcases apr_dir_make_cases fs3 p with ⟨hmem3, hmk3⟩ | hmk3 | hmk3
      · rw [hmk3] at h
        simp at h
        exact h ▸ hmem3
      · rw [hmk3] at h
        simp at h
      · rw [hmk3] at h
        simp at h
        rw [← h]
        exact List.mem_cons_self p fs3.dirs
    · rw [if_neg hgood] at h
      simp at h
      exact absurd (Or.inl h.1) hgood
  · rw [hmk] at h
    simp at h
    rw [← h]
    exact List.mem_cons_self p fs.dirs

/-- apr_dir_make_recursive on an existing path succeeds and leaves the
state unchanged (the top-level already-exists result is converted to
success). -/
theorem apr_dir_make_recursive_of_mem (fs : Fs) (p : DirPath) (h : p ∈ fs.dirs) :
    apr_dir_make_recursive fs p = (Status.success, fs) := by
  unfold apr_dir_make_recursive
  rw [apr_dir_make_of_mem fs p h]
  simp

/-- C5: apr_dir_make_recursive is idempotent and race-tolerant: an
already-exists report for the whole path (here: the path being present)
is turned into success with the state unchanged, and after any
successful call, calling apr_dir_make_recursive again on the same path
succeeds without changing the state. -/
theorem dir_make_recursive_idempotent (fs fs2 g : Fs) (p : DirPath)
    (h : apr_dir_make_recursive fs p = (Status.success, fs2))
    (hg : p ∈ g.dirs) :
    apr_dir_make_recursive fs2 p = (Status.success, fs2) ∧
    apr_dir_make_recursive g p = (Status.success, g) :=
  ⟨apr_dir_make_recursive_of_mem fs2 p (apr_dir_make_recursive_mem fs fs2 p h),
   apr_dir_make_recursive_of_mem g p hg⟩

/-- Witness for C5: create a/b under a filesystem that already has a,
then call again; also the whole-path-exists case. -/
theorem dir_make_recursive_idempotent_witness :
    apr_dir_make_recursive ⟨[["a", "b"], ["a"]]⟩ ["a", "b"]
      = (Status.success, ⟨[["a", "b"], ["a"]]⟩) ∧
    apr_dir_make_recursive ⟨[["a", "b"]]⟩ ["a", "b"] = (Status.success, ⟨[["a", "b"]]⟩) :=
  dir_make_recursive_idempotent ⟨[["a"]]⟩ ⟨[["a", "b"], ["a"]]⟩ ⟨[["a", "b"]]⟩ ["a", "b"]
    (by decide) (by decide)

/-- The skip loop never grows the remaining native cursor. -/
theorem skip_long_names_len (rootlen : Nat) (entry : String) (pending : List String)
    (nm : String) (rest : List String)
    (h : skip_long_names rootlen entry pending = some (nm, rest)) :
    rest.length ≤ pending.length := by
  induction pending generalizing entry with
  | nil =>
    unfold skip_long_names at h
    split at h
    · exact absurd h (by simp)
    · simp at h
      simp [h.2]
  | cons e rest0 ih =>
    unfold skip_long_names at h
    split at h
    · have := ih e h
      simp only [List.length_cons]
      omega
    · simp at h
      obtain ⟨-, h2⟩ := h
      rw [← h2]

/-- When the skip loop exhausts the cursor, every entry it saw had an
over-long assembled path. -/
theorem skip_long_names_none (rootlen : Nat) (hr : rootlen ≠ 0) (entry : String)
    (pending : List String) (h : skip_long_names rootlen entry pending = none) :
    (entry :: pending).filter (name_fits rootlen) = [] := by
  induction pending generalizing entry with
  | nil =>
    unfold skip_long_names at h
    split at h
    · next hc =>
      have hf : name_fits rootlen entry = false := by
        simp only [name_fits, decide_eq_false_iff_not, not_lt]
        exact hc.2
      simp [List.filter_cons, hf]
    · exact absurd h (by simp)
  | cons e rest0 ih =>
    unfold skip_long_names at h
    split at h
    · next hc =>
      have hf : name_fits rootlen entry = false := by
        simp only [name_fits, decide_eq_false_iff_not, not_lt]
        exact hc.2
      have := ih e h
      simpa [List.filter_cons, hf] using this
    · exact absurd h (by simp)

/-- When the skip loop stops at an entry, that entry fits, and the
entries it skipped were exactly the non-fitting prefix. -/
theorem skip_long_names_some (rootlen : Nat) (hr : rootlen ≠ 0) (entry : String)
    (pending : List String) (nm : String) (rest : List String)
    (h : skip_long_names rootlen entry pending = some (nm, rest)) :
    name_fits rootlen nm = true ∧
    (entry :: pending).filter (name_fits rootlen)
      = nm :: rest.filter (name_fits rootlen) := by
  induction pending generalizing entry with
  | nil =>
    unfold skip_long_names at h
    split at h
    · exact absurd h (by simp)
    · next hc =>
      simp at h
      obtain ⟨rfl, rfl⟩ := h
      have hlt : rootlen + entry.length < APR_PATH_MAX := by
        by_contra hcon
        exact hc ⟨hr, by omega⟩
      have hf : name_fits rootlen entry = true := by
        simp [name_fits, hlt]
      exact ⟨hf, by simp [List.filter_cons, hf]⟩
  | cons e rest0 ih =>
    unfold skip_long_names at h
    split at h
    · next hc =>
      have hf : name_fits rootlen entry = false := by
        simp only [name_fits, decide_eq_false_iff_not, not_lt]
        exact hc.2
      obtain ⟨h1, h2⟩ := ih e h
      exact ⟨h1, by simp [List.filter_cons, hf, h2]⟩
    · next hc =>
      simp at h
      obtain ⟨rfl, rfl⟩ := h
      have hlt : rootlen + entry.length < APR_PATH_MAX := by
        by_contra hcon
        exact hc ⟨hr, by omega⟩
      have hf : name_fits rootlen entry = true := by
        simp [name_fits, hlt]
      exact ⟨hf, by simp [List.filter_cons, hf]⟩

/-- apr_dir_read at beginning-of-stream, skip loop finds a fitting,
convertible entry. -/
theorem apr_dir_read_model_bof_some (d : DirState) (nm : String) (rest : List String)
    (hbof : d.bof = true)
    (hskip : skip_long_names d.rootlen d.entry d.pending = some (nm, rest))
    (hshort : ¬ nm.length ≥ APR_FILE_MAX * 3 + 1) :
    apr_dir_read_model d
      = (Status.success, some nm, { d with bof := false, entry := nm, pending := rest }) := by
  unfold apr_dir_read_model
  rw [if_pos hbof, hskip]
  simp [if_neg hshort]

/-- apr_dir_read at beginning-of-stream, skip loop exhausts the cursor. -/
theorem apr_dir_read_model_bof_none (d : DirState)
    (hbof : d.bof = true)
    (hskip : skip_long_names d.rootlen d.entry d.pending = none) :
    apr_dir_read_model d = (Status.osError 18, none, { d with bof := false }) := by
  unfold apr_dir_read_model
  rw [if_pos hbof, hskip]

/-- apr_dir_read past beginning-of-stream with an exhausted cursor. -/
theorem apr_dir_read_model_nonbof_nil (d : DirState)
    (hbof : ¬ d.bof = true) (hpend : d.pending = []) :
    apr_dir_read_model d = (Status.osError 18, none, d) := by
  unfold apr_dir_read_model
  rw [if_neg hbof, hpend]

/-- apr_dir_read past beginning-of-stream, skip loop finds a fitting,
convertible entry. -/
theorem apr_dir_read_model_nonbof_some (d : DirState) (e : String) (rest0 : List String)
    (nm : String) (rest : List String)
    (hbof : ¬ d.bof = true) (hpend : d.pending = e :: rest0)
    (hskip : skip_long_names d.rootlen e rest0 = some (nm, rest))
    (hshort : ¬ nm.length ≥ APR_FILE_MAX * 3 + 1) :
    apr_dir_read_model d
      = (Status.success, some nm, { d with entry := nm, pending := rest }) := by
  unfold apr_dir_read_model
  rw [if_neg hbof, hpend]
  simp only []
  rw [hskip]
  simp [if_neg hshort]

/-- apr_dir_read past beginning-of-stream, skip loop exhausts the
cursor. -/
theorem apr_dir_read_model_nonbof_none (d : DirState) (e : String) (rest0 : List String)
    (hbof : ¬ d.bof = true) (hpend : d.pending = e :: rest0)
    (hskip : skip_long_names d.rootlen e rest0 = none) :
    apr_dir_read_model d = (Status.osError 18, none, { d with entry := e, pending := rest0 }) := by
  unfold apr_dir_read_model
  rw [if_neg hbof, hpend]
  simp only []
  rw [hskip]

/-- Driving the reader one more step after a successful read. -/
theorem apr_dir_read_all_cons (fuel : Nat) (d d2 : DirState) (nm : String)
    (h : apr_dir_read_model d = (Status.success, some nm, d2)) :
    apr_dir_read_all (fuel + 1) d = nm :: apr_dir_read_all fuel d2 := by
  have hstep : apr_dir_read_all (fuel + 1) d
      = (match apr_dir_read_model d with
         | (Status.success, some nm, d2) => nm :: apr_dir_read_all fuel d2
         | _ => []) := rfl
  rw [hstep, h]

/-- The reader stops on the native no-more-files error. -/
theorem apr_dir_read_all_stop (fuel : Nat) (d d2 : DirState) (code : Nat)
    (h : apr_dir_read_model d = (Status.osError code, none, d2)) :
    apr_dir_read_all (fuel + 1) d = [] := by
  have hstep : apr_dir_read_all (fuel + 1) d
      = (match apr_dir_read_model d with
         | (Status.success, some nm, d2) => nm :: apr_dir_read_all fuel d2
         | _ => []) := rfl
  rw [hstep, h]

/-- Driving apr_dir_read with enough fuel reports exactly the entries of
the remaining cursor whose assembled paths fit the platform limit. -/
theorem apr_dir_read_all_spec (rootlen : Nat) (hr : rootlen ≠ 0) :
    ∀ (fuel : Nat) (d : DirState), d.rootlen = rootlen →
      (dir_cursor d).length ≤ fuel →
      apr_dir_read_all fuel d = (dir_cursor d).filter (name_fits rootlen) := by
  intro fuel
  induction fuel with
  | zero =>
    intro d hd hlen
    have hnil : dir_cursor d = [] := List.length_eq_zero.mp (Nat.le_zero.mp hlen)
    rw [hnil]
    rfl
  | succ fuel ih =>
    intro d hd hlen
    by_cases hbof : d.bof = true
    · have hcur : dir_cursor d = d.entry :: d.pending := by
        unfold dir_cursor
        rw [if_pos hbof]
      rcases hskip : skip_long_names d.rootlen d.entry d.pending with - | ⟨nm, rest⟩
      · rw [apr_dir_read_all_stop fuel d _ 18 (apr_dir_read_model_bof_none d hbof hskip)]
        rw [hd] at hskip
        have := skip_long_names_none rootlen hr d.entry d.pending hskip
        rw [hcur, this]
      · have hskipr := hskip
        rw [hd] at hskipr
        obtain ⟨hfit, hfilter⟩ :=
          skip_long_names_some rootlen hr d.entry d.pending nm rest hskipr
        have hshort : ¬ nm.length ≥ APR_FILE_MAX * 3 + 1 := by
          simp only [name_fits, decide_eq_true_eq] at hfit
          unfold APR_PATH_MAX at hfit
          unfold APR_FILE_MAX
          omega
        rw [apr_dir_read_all_cons fuel d _ nm
          (apr_dir_read_model_bof_some d nm rest hbof hskip hshort)]
        have hlen2 :
            (dir_cursor { d with bof := false, entry := nm, pending := rest }).length
              ≤ fuel := by
          have h1 := skip_long_names_len d.rootlen d.entry d.pending nm rest hskip
          rw [hcur] at hlen
          simp only [dir_cursor, List.length_cons] at *
          simp only [Bool.false_eq_true, if_false]
          omega
        rw [ih { d with bof := false, entry := nm, pending := rest } hd hlen2]
        rw [hcur, hfilter]
        simp [dir_cursor]
    · have hcur : dir_cursor d = d.pending := by
        unfold dir_cursor
        rw [if_neg hbof]
      rcases hpend : d.pending with - | ⟨e, rest0⟩
      · rw [apr_dir_read_all_stop fuel d _ 18 (apr_dir_read_model_nonbof_nil d hbof hpend)]
        rw [hcur, hpend]
        rfl
      · rcases hskip : skip_long_names d.rootlen e rest0 with - | ⟨nm, rest⟩
        · rw [apr_dir_read_all_stop fuel d _ 18
            (apr_dir_read_model_nonbof_none d e rest0 hbof hpend hskip)]
          rw [hd] at hskip
          have := skip_long_names_none rootlen hr e rest0 hskip
          rw [hcur, hpend, this]
        · have hskipr := hskip
          rw [hd] at hskipr
          obtain ⟨hfit, hfilter⟩ := skip_long_names_some rootlen hr e rest0 nm rest hskipr
          have hshort : ¬ nm.length ≥ APR_FILE_MAX * 3 + 1 := by
            simp only [name_fits, decide_eq_true_eq] at hfit
            unfold APR_PATH_MAX at hfit
            unfold APR_FILE_MAX
            omega
          rw [apr_dir_read_all_cons fuel d _ nm
            (apr_dir_read_model_nonbof_some d e rest0 nm rest hbof hpend hskip hshort)]
          have hlen2 : (dir_cursor { d with entry := nm, pending := rest }).length
              ≤ fuel := by
            have h1 := skip_long_names_len d.rootlen e rest0 nm rest hskip
            rw [hcur, hpend] at hlen
            simp only [dir_cursor, List.length_cons] at *
            simp only [if_neg hbof]
            omega
          rw [ih { d with entry := nm, pending := rest } hd hlen2]
          rw [hcur, hpend, hfilter]
          simp [dir_cursor, hbof]

/-- Splitting a list by a Boolean predicate preserves its length. -/
theorem length_filter_partition {α : Type} (p : α → Bool) (l : List α) :
    (l.filter p).length + (l.filter (fun x => !(p x))).length = l.length := by
  induction l with
  | nil => rfl
  | cons a l ih =>
    by_cases h : p a <;> simp [List.filter_cons, h] <;> omega

/-- C6: with a non-empty root prefix, enumerating a freshly opened
directory reports exactly the entries whose assembled absolute path
stays below the platform limit — the over-long ones are silently
skipped — so N entries of which M exceed the limit yield N − M reported
entries. -/
theorem dir_read_skips_long_paths (rootlen : Nat) (first : String) (rest : List String)
    (fuel : Nat) (hr : rootlen ≠ 0) (hfuel : rest.length + 1 ≤ fuel) :
    apr_dir_read_all fuel (dir_open_state rootlen first rest)
      = (first :: rest).filter (name_fits rootlen) ∧
    (apr_dir_read_all fuel (dir_open_state rootlen first rest)).length
      = (first :: rest).length
        - ((first :: rest).filter (fun e => !(name_fits rootlen e))).length := by
  have hcur : dir_cursor (dir_open_state rootlen first rest) = first :: rest := by
    simp [dir_cursor, dir_open_state]
  have h1 := apr_dir_read_all_spec rootlen hr fuel (dir_open_state rootlen first rest)
    rfl (by rw [hcur]; simpa using hfuel)
  rw [hcur] at h1
  refine ⟨h1, ?_⟩
  rw [h1]
  have hpart := length_filter_partition (name_fits rootlen) (first :: rest)
  omega

/-- Witness for C6: root length 258, entries "ab" (path length 260,
skipped), "c" (reported) and "dd" (skipped): 3 entries, 2 over the
limit, 1 reported. -/
theorem dir_read_skips_long_paths_witness :
    apr_dir_read_all 3 (dir_open_state 258 "ab" ["c", "dd"])
      = ("ab" :: ["c", "dd"]).filter (name_fits 258) ∧
    (apr_dir_read_all 3 (dir_open_state 258 "ab" ["c", "dd"])).length
      = ("ab" :: ["c", "dd"]).length
        - (("ab" :: ["c", "dd"]).filter (fun e => !(name_fits 258 e))).length :=
  dir_read_skips_long_paths 258 "ab" ["c", "dd"] 3 (by decide) (by decide)

/-- The sendfile loop with no file bytes left returns its accumulators. -/
theorem sendfile_loop_zero (trailers : List Nat) (fuel len ftot hd tl : Nat) (p s : Bool) :
    sendfile_loop trailers fuel 0 len ftot hd tl p s = (len, ftot, s) := by
  cases fuel <;> rfl

/-- Accounting invariant of the sendfile segment loop: starting with `b`
file bytes still to send, a staged header length `hd` (zero when ptfb is
unset), an empty staged trailer and the punt flag clear, the loop sends
exactly `b` file bytes, and the final `*len` — after a punted trailer
send is added back — grows by exactly `b + hd + trailers.sum`. -/
theorem sendfile_loop_spec (trailers : List Nat) :
    ∀ (fuel b len ftot hd : Nat) (p : Bool),
      b ≠ 0 → b ≤ fuel → (p = false → hd = 0) → trailers.sum < DWORD_MOD →
      (if (sendfile_loop trailers fuel b len ftot hd 0 p false).2.2 = true
       then (sendfile_loop trailers fuel b len ftot hd 0 p false).1 + trailers.sum
       else (sendfile_loop trailers fuel b len ftot hd 0 p false).1)
          = len + b + hd + trailers.sum ∧
      (sendfile_loop trailers fuel b len ftot hd 0 p false).2.1 = ftot + b := by
  intro fuel
  induction fuel with
  | zero =>
    intro b len ftot hd p hb hfuel hinv ht
    omega
  | succ fuel ih =>
    intro b len ftot hd p hb hfuel hinv ht
    have hstep : sendfile_loop trailers (fuel + 1) b len ftot hd 0 p false
        = (if b = 0 then (len, ftot, false)
           else if b > MAX_SEGMENT_SIZE then
             sendfile_loop trailers fuel (b - MAX_SEGMENT_SIZE)
               (len + (MAX_SEGMENT_SIZE + (if p then hd + 0 else 0)))
               (ftot + MAX_SEGMENT_SIZE)
               (if p then 0 else hd) (if p then 0 else 0) false false
           else
             match
               (if trailers = [] then ((0 : Nat), p, false)
                else
                  match collapse_iovec trailers 0
                      ((HDTRBUF_SIZE + SIZE_T_MOD - hd) % SIZE_T_MOD) with
                  | (rv, tl) => (tl % DWORD_MOD, true, false || (rv == Status.incomplete)))
             with
             | (tl, p2, sv) =>
               sendfile_loop trailers fuel 0
                 (len + (b + (if p2 then hd + tl else 0)))
                 (ftot + b)
                 (if p2 then 0 else hd) (if p2 then 0 else tl) false sv) := rfl
    have hif1 : (if p then hd + 0 else 0) = hd := by
      cases p
      · simp [hinv rfl]
      · simp
    have hif2 : (if p then 0 else hd) = 0 := by
      cases p
      · simp [hinv rfl]
      · simp
    rw [hstep, if_neg hb]
    by_cases hgt : b > MAX_SEGMENT_SIZE
    · rw [if_pos hgt, hif1, hif2, ite_self]
      have hrec := ih (b - MAX_SEGMENT_SIZE) (len + (MAX_SEGMENT_SIZE + hd))
        (ftot + MAX_SEGMENT_SIZE) 0 false
        (by unfold MAX_SEGMENT_SIZE at *; omega)
        (by unfold MAX_SEGMENT_SIZE at *; omega)
        (fun _ => rfl) ht
      obtain ⟨hr1, hr2⟩ := hrec
      refine ⟨?_, ?_⟩
      · rw [hr1]
        unfold MAX_SEGMENT_SIZE at *
        omega
      · rw [hr2]
        unfold MAX_SEGMENT_SIZE at *
        omega
    · rw [if_neg hgt]
      by_cases htr : trailers = []
      · subst htr
        rw [if_pos rfl]
        have hred : (match ((0 : Nat), p, false) with
             | (tl, p2, sv) =>
               sendfile_loop ([] : List Nat) fuel 0
                 (len + (b + (if p2 then hd + tl else 0)))
                 (ftot + b)
                 (if p2 then 0 else hd) (if p2 then 0 else tl) false sv)
            = sendfile_loop ([] : List Nat) fuel 0
                (len + (b + (if p then hd + 0 else 0))) (ftot + b)
                (if p then 0 else hd) (if p then 0 else 0) false false := rfl
        rw [hred, hif1, sendfile_loop_zero]
        simp only [List.sum_nil]
        refine ⟨?_, ?_⟩ <;> simp <;> omega
      · cases trailers with
        | nil => exact absurd rfl htr
        | cons v1 vrest =>
          rw [if_neg htr]
          cases vrest with
          | nil =>
            have hcol : collapse_iovec [v1] 0
                ((HDTRBUF_SIZE + SIZE_T_MOD - hd) % SIZE_T_MOD) = (Status.success, v1) := rfl
            rw [hcol]
            have hred : (match (v1 % DWORD_MOD, true, false || (Status.success == Status.incomplete)) with
                 | (tl, p2, sv) =>
                   sendfile_loop [v1] fuel 0
                     (len + (b + (if p2 then hd + tl else 0)))
                     (ftot + b)
                     (if p2 then 0 else hd) (if p2 then 0 else tl) false sv)
                = sendfile_loop [v1] fuel 0
                    (len + (b + (hd + v1 % DWORD_MOD))) (ftot + b) 0 0 false false := rfl
            rw [hred]
            have hv1 : v1 % DWORD_MOD = v1 := Nat.mod_eq_of_lt (by simpa using ht)
            rw [hv1, sendfile_loop_zero]
            simp only [List.sum_cons, List.sum_nil]
            refine ⟨?_, ?_⟩ <;> simp <;> omega
          | cons v2 vr =>
            by_cases hfit : 0 + (v1 :: v2 :: vr).sum
                > (HDTRBUF_SIZE + SIZE_T_MOD - hd) % SIZE_T_MOD
            · have hcol : collapse_iovec (v1 :: v2 :: vr) 0
                  ((HDTRBUF_SIZE + SIZE_T_MOD - hd) % SIZE_T_MOD)
                  = (Status.incomplete, 0) := by
                unfold collapse_iovec
                rw [if_pos hfit]
              rw [hcol]
              have hred : (match ((0 : Nat) % DWORD_MOD, true,
                     false || (Status.incomplete == Status.incomplete)) with
                   | (tl, p2, sv) =>
                     sendfile_loop (v1 :: v2 :: vr) fuel 0
                       (len + (b + (if p2 then hd + tl else 0)))
                       (ftot + b)
                       (if p2 then 0 else hd) (if p2 then 0 else tl) false sv)
                  = sendfile_loop (v1 :: v2 :: vr) fuel 0
                      (len + (b + (hd + 0 % DWORD_MOD))) (ftot + b) 0 0 false true := rfl
              rw [hred, sendfile_loop_zero]
              simp only [Nat.zero_mod, if_pos rfl]
              refine ⟨?_, ?_⟩ <;> simp <;> omega
            · have hcol : collapse_iovec (v1 :: v2 :: vr) 0
                  ((HDTRBUF_SIZE + SIZE_T_MOD - hd) % SIZE_T_MOD)
                  = (Status.success, 0 + (v1 :: v2 :: vr).sum) := by
                unfold collapse_iovec
                rw [if_neg hfit]
              rw [hcol]
              have hred : (match ((0 + (v1 :: v2 :: vr).sum) % DWORD_MOD, true,
                     false || (Status.success == Status.incomplete)) with
                   | (tl, p2, sv) =>
                     sendfile_loop (v1 :: v2 :: vr) fuel 0
                       (len + (b + (if p2 then hd + tl else 0)))
                       (ftot + b)
                       (if p2 then 0 else hd) (if p2 then 0 else tl) false sv)
                  = sendfile_loop (v1 :: v2 :: vr) fuel 0
                      (len + (b + (hd + (0 + (v1 :: v2 :: vr).sum) % DWORD_MOD)))
                      (ftot + b) 0 0 false false := rfl
              rw [hred]
              have hsum : (0 + (v1 :: v2 :: vr).sum) % DWORD_MOD = (v1 :: v2 :: vr).sum := by
                rw [Nat.zero_add]
                exact Nat.mod_eq_of_lt ht
              rw [hsum, sendfile_loop_zero]
              refine ⟨?_, ?_⟩ <;> simp <;> omega

/-- C1: with every native call succeeding (no timeout, no native error),
apr_socket_sendfile on a file segment of S bytes with headers totalling
H and trailers totalling T reports `*len = H + S + T`, and the
file-only running total equals exactly S (header/trailer bytes are
subtracted from each segment's raw reported transfer size and re-added
exactly once).  The DWORD-cast hypotheses keep the header/trailer
totals representable in the native length fields. -/
theorem sendfile_total_accounting (S : Nat) (hdtr : Option HdtrT)
    (hH : (hdtr_headers hdtr).sum < DWORD_MOD)
    (hT : (hdtr_trailers hdtr).sum < DWORD_MOD) :
    apr_socket_sendfile S hdtr
      = (Status.success, (hdtr_headers hdtr).sum + S + (hdtr_trailers hdtr).sum, S) := by
  by_cases hdeg : S = 0 ∧ hdtr.isSome
  · unfold apr_socket_sendfile
    rw [if_pos hdeg]
    obtain ⟨rfl, -⟩ := hdeg
    have harith : (hdtr_headers hdtr).sum + (hdtr_trailers hdtr).sum
        = (hdtr_headers hdtr).sum + 0 + (hdtr_trailers hdtr).sum := by omega
    rw [harith]
  · unfold apr_socket_sendfile
    rw [if_neg hdeg]
    by_cases hS : S = 0
    · have hnone : hdtr = none := by
        cases hdtr with
        | none => rfl
        | some h => exact absurd ⟨hS, rfl⟩ hdeg
      subst hnone
      subst hS
      simp [hdtr_headers, hdtr_trailers, sendfile_loop_zero]
    · rcases hhd : hdtr_headers hdtr with - | ⟨w1, wrest⟩
      · rcases hloop : sendfile_loop (hdtr_trailers hdtr) S S 0 0 0 0 false false
          with ⟨len1, ftot, sv⟩
        have hspec := sendfile_loop_spec (hdtr_trailers hdtr) S S 0 0 0 false hS
          (Nat.le_refl S) (fun _ => rfl) hT
        rw [hloop] at hspec
        simp only at hspec
        obtain ⟨h1, h2⟩ := hspec
        show (match sendfile_loop (hdtr_trailers hdtr) S S 0 0 0 0 false false with
              | (len1, ftot, sv) =>
                (Status.success,
                 if sv = true then len1 + (hdtr_trailers hdtr).sum else len1, ftot))
            = (Status.success, [].sum + S + (hdtr_trailers hdtr).sum, S)
        rw [hloop]
        have hx : (if sv = true then len1 + (hdtr_trailers hdtr).sum else len1)
            = [].sum + S + (hdtr_trailers hdtr).sum := by
          rw [h1]
          simp only [List.sum_nil]
          omega
        have hy : ftot = S := by omega
        exact (show (Status.success,
            if sv = true then len1 + (hdtr_trailers hdtr).sum else len1, ftot)
          = (Status.success, [].sum + S + (hdtr_trailers hdtr).sum, S) by rw [hx, hy])
      · cases wrest with
        | nil =>
          have hw1 : w1 % DWORD_MOD = w1 := Nat.mod_eq_of_lt (by rw [hhd] at hH; simpa using hH)
          rcases hloop : sendfile_loop (hdtr_trailers hdtr) S S 0 0 w1 0 true false
            with ⟨len1, ftot, sv⟩
          have hspec := sendfile_loop_spec (hdtr_trailers hdtr) S S 0 0 w1 true hS
            (Nat.le_refl S) (fun hcon => by simp at hcon) hT
          rw [hloop] at hspec
          simp only at hspec
          obtain ⟨h1, h2⟩ := hspec
          show (match sendfile_loop (hdtr_trailers hdtr) S S 0 0 (w1 % DWORD_MOD) 0
                  true false with
                | (len1, ftot, sv) =>
                  (Status.success,
                   if sv = true then len1 + (hdtr_trailers hdtr).sum else len1, ftot))
              = (Status.success, [w1].sum + S + (hdtr_trailers hdtr).sum, S)
          rw [hw1, hloop]
          have hx : (if sv = true then len1 + (hdtr_trailers hdtr).sum else len1)
              = [w1].sum + S + (hdtr_trailers hdtr).sum := by
            rw [h1]
            simp only [List.sum_cons, List.sum_nil]
            omega
          have hy : ftot = S := by omega
          exact (show (Status.success,
              if sv = true then len1 + (hdtr_trailers hdtr).sum else len1, ftot)
            = (Status.success, [w1].sum + S + (hdtr_trailers hdtr).sum, S) by rw [hx, hy])
        | cons w2 wr =>
          by_cases hfit : 0 + (w1 :: w2 :: wr).sum > HDTRBUF_SIZE
          · have hcol : collapse_iovec (w1 :: w2 :: wr) 0 HDTRBUF_SIZE
                = (Status.incomplete, 0) := by
              unfold collapse_iovec
              rw [if_pos hfit]
            rcases hloop : sendfile_loop (hdtr_trailers hdtr) S S
                ((w1 :: w2 :: wr).sum) 0 0 0 false false with ⟨len1, ftot, sv⟩
            have hspec := sendfile_loop_spec (hdtr_trailers hdtr) S S
              ((w1 :: w2 :: wr).sum) 0 0 false hS (Nat.le_refl S) (fun _ => rfl) hT
            rw [hloop] at hspec
            simp only at hspec
            obtain ⟨h1, h2⟩ := hspec
            rw [hcol]
            show (match sendfile_loop (hdtr_trailers hdtr) S S
                    ((w1 :: w2 :: wr).sum) 0 0 0 false false with
                  | (len1, ftot, sv) =>
                    (Status.success,
                     if sv = true then len1 + (hdtr_trailers hdtr).sum else len1, ftot))
                = (Status.success, (w1 :: w2 :: wr).sum + S + (hdtr_trailers hdtr).sum, S)
            rw [hloop]
            have hx : (if sv = true then len1 + (hdtr_trailers hdtr).sum else len1)
                = (w1 :: w2 :: wr).sum + S + (hdtr_trailers hdtr).sum := by
              rw [h1]
              omega
            have hy : ftot = S := by omega
            exact (show (Status.success,
                if sv = true then len1 + (hdtr_trailers hdtr).sum else len1, ftot)
              = (Status.success,
                 (w1 :: w2 :: wr).sum + S + (hdtr_trailers hdtr).sum, S) by rw [hx, hy])
          · have hcol : collapse_iovec (w1 :: w2 :: wr) 0 HDTRBUF_SIZE
                = (Status.success, 0 + (w1 :: w2 :: wr).sum) := by
              unfold collapse_iovec
              rw [if_neg hfit]
            have hsum : (0 + (w1 :: w2 :: wr).sum) % DWORD_MOD = (w1 :: w2 :: wr).sum := by
              rw [Nat.zero_add]
              exact Nat.mod_eq_of_lt (hhd ▸ hH)
            rcases hloop : sendfile_loop (hdtr_trailers hdtr) S S 0 0
                ((w1 :: w2 :: wr).sum) 0 true false with ⟨len1, ftot, sv⟩
            have hspec := sendfile_loop_spec (hdtr_trailers hdtr) S S 0 0
              ((w1 :: w2 :: wr).sum) true hS (Nat.le_refl S)
              (fun hcon => by simp at hcon) hT
            rw [hloop] at hspec
            simp only at hspec
            obtain ⟨h1, h2⟩ := hspec
            rw [hcol]
            show (match sendfile_loop (hdtr_trailers hdtr) S S 0 0
                    ((0 + (w1 :: w2 :: wr).sum) % DWORD_MOD) 0 true false with
                  | (len1, ftot, sv) =>
                    (Status.success,
                     if sv = true then len1 + (hdtr_trailers hdtr).sum else len1, ftot))
                = (Status.success, (w1 :: w2 :: wr).sum + S + (hdtr_trailers hdtr).sum, S)
            rw [hsum, hloop]
            have hx : (if sv = true then len1 + (hdtr_trailers hdtr).sum else len1)
                = (w1 :: w2 :: wr).sum + S + (hdtr_trailers hdtr).sum := by
              rw [h1]
              omega
            have hy : ftot = S := by omega
            exact (show (Status.success,
                if sv = true then len1 + (hdtr_trailers hdtr).sum else len1, ftot)
              = (Status.success,
                 (w1 :: w2 :: wr).sum + S + (hdtr_trailers hdtr).sum, S) by rw [hx, hy])

/-- Witness for C1: a 100000-byte file (two TransmitFile segments) with
headers of 10 and 20 bytes and a 30-byte trailer reports
10+20+100000+30 bytes total and 100000 file bytes. -/
theorem sendfile_total_accounting_witness :
    apr_socket_sendfile 100000 (some ⟨[10, 20], [30]⟩)
      = (Status.success,
         (hdtr_headers (some ⟨[10, 20], [30]⟩)).sum + 100000 +
           (hdtr_trailers (some ⟨[10, 20], [30]⟩)).sum,
         100000) :=
  sendfile_total_accounting 100000 (some ⟨[10, 20], [30]⟩) (by decide) (by decide)


/-- guess_protection_bits only adds the protection valid bits, leaving
the five MIN fields of the valid mask unchanged. -/
theorem guess_protection_bits_min_fields (f : Finfo) (w : FinfoMask) :
    min_fields (guess_protection_bits f w).1.valid = min_fields f.valid := by
  unfold guess_protection_bits
  split <;> simp [min_fields, FinfoMask.union, APR_FINFO_PROT]

theorem guess_valid_ftype (f : Finfo) (w : FinfoMask) :
    (guess_protection_bits f w).1.valid.ftype = f.valid.ftype :=
  congrArg (fun t => t.1) (guess_protection_bits_min_fields f w)

theorem guess_valid_size (f : Finfo) (w : FinfoMask) :
    (guess_protection_bits f w).1.valid.size = f.valid.size :=
  congrArg (fun t => t.2.1) (guess_protection_bits_min_fields f w)

theorem guess_valid_atime (f : Finfo) (w : FinfoMask) :
    (guess_protection_bits f w).1.valid.atime = f.valid.atime :=
  congrArg (fun t => t.2.2.1) (guess_protection_bits_min_fields f w)

theorem guess_valid_ctime (f : Finfo) (w : FinfoMask) :
    (guess_protection_bits f w).1.valid.ctime = f.valid.ctime :=
  congrArg (fun t => t.2.2.2.1) (guess_protection_bits_min_fields f w)

theorem guess_valid_mtime (f : Finfo) (w : FinfoMask) :
    (guess_protection_bits f w).1.valid.mtime = f.valid.mtime :=
  congrArg (fun t => t.2.2.2.2) (guess_protection_bits_min_fields f w)

/-- resolve_prot only adds protection valid bits, leaving the five MIN
fields of the valid mask unchanged. -/
theorem resolve_prot_min_fields (env : SecEnv) (f : Finfo) (w : FinfoMask) :
    min_fields (resolve_prot env f w).valid = min_fields f.valid := by
  unfold resolve_prot
  dsimp only
  split_ifs <;> simp [min_fields]

theorem resolve_prot_valid_ftype (env : SecEnv) (f : Finfo) (w : FinfoMask) :
    (resolve_prot env f w).valid.ftype = f.valid.ftype :=
  congrArg (fun t => t.1) (resolve_prot_min_fields env f w)

theorem resolve_prot_valid_size (env : SecEnv) (f : Finfo) (w : FinfoMask) :
    (resolve_prot env f w).valid.size = f.valid.size :=
  congrArg (fun t => t.2.1) (resolve_prot_min_fields env f w)

theorem resolve_prot_valid_atime (env : SecEnv) (f : Finfo) (w : FinfoMask) :
    (resolve_prot env f w).valid.atime = f.valid.atime :=
  congrArg (fun t => t.2.2.1) (resolve_prot_min_fields env f w)

theorem resolve_prot_valid_ctime (env : SecEnv) (f : Finfo) (w : FinfoMask) :
    (resolve_prot env f w).valid.ctime = f.valid.ctime :=
  congrArg (fun t => t.2.2.2.1) (resolve_prot_min_fields env f w)

theorem resolve_prot_valid_mtime (env : SecEnv) (f : Finfo) (w : FinfoMask) :
    (resolve_prot env f w).valid.mtime = f.valid.mtime :=
  congrArg (fun t => t.2.2.2.2) (resolve_prot_min_fields env f w)

/-- more_finfo only adds owner/group/protection/compressed-size valid
bits, leaving the five MIN fields of the valid mask unchanged. -/
theorem more_finfo_min_fields (env : SecEnv) (f : Finfo) (w : FinfoMask) :
    min_fields (more_finfo env f w).1.valid = min_fields f.valid := by
  unfold more_finfo
  split
  · exact guess_protection_bits_min_fields f w
  · dsimp only
    split_ifs <;>
      simp [min_fields, resolve_prot_valid_ftype, resolve_prot_valid_size,
        resolve_prot_valid_atime, resolve_prot_valid_ctime, resolve_prot_valid_mtime,
        guess_valid_ftype, guess_valid_size, guess_valid_atime, guess_valid_ctime,
        guess_valid_mtime]

/-- The MIN-subset test only depends on the five MIN fields. -/
theorem min_subset_of_min_fields (v : FinfoMask)
    (h : min_fields v = (true, true, true, true, true)) :
    APR_FINFO_MIN.subset v = true := by
  simp only [min_fields, Prod.mk.injEq] at h
  obtain ⟨h1, h2, h3, h4, h5⟩ := h
  simp [FinfoMask.subset, APR_FINFO_MIN, h1, h2, h3, h4, h5]

/-- Both exits of the by-handle tail of apr_file_info_get (escalating
through more_finfo or returning the filled finfo directly) preserve the
five MIN bits of the valid mask. -/
theorem info_get_branch_min (se : SecEnv) (f3 : Finfo) (w : FinfoMask) (c : Bool)
    (tr tr2 : List FsCall) (st : Status)
    (hmin : min_fields f3.valid = (true, true, true, true, true)) :
    min_fields ((if c = true then
        ((more_finfo se f3 w).2.1, (more_finfo se f3 w).1, tr)
      else (st, f3, tr2)).2.1).valid = (true, true, true, true, true) := by
  cases c
  · simpa using hmin
  · simpa using (more_finfo_min_fields se f3 w).trans hmin

/-- C2 counterexample: the apr_file_info_get size-only fast path
succeeds with a valid mask of exactly {SIZE}, which is not a superset
of the cheap minimal set; and fillin_fileinfo populates the protection
field with the platform read-only flag while leaving every protection
valid bit clear, so a field outside the valid mask carries meaningful
platform data. -/
theorem finfo_valid_min_superset_cex :
    (apr_file_info_get { getFileSizeEx := some 42 } APR_FINFO_SIZE_BIT "f" {}).1
        = Status.success ∧
    APR_FINFO_MIN.subset
        (apr_file_info_get { getFileSizeEx := some 42 } APR_FINFO_SIZE_BIT "f" {}).2.1.valid
      = false ∧
    (fillin_fileinfo {} { readonlyAttr := true } false true "f" {}).1.protection
        = APR_FREADONLY ∧
    (fillin_fileinfo {} { readonlyAttr := true } false true "f" {}).1.valid.uprot = false ∧
    (fillin_fileinfo {} { readonlyAttr := true } false true "f" {}).1.valid.gprot = false ∧
    (fillin_fileinfo {} { readonlyAttr := true } false true "f" {}).1.valid.wprot = false := by
  decide

/-- C2 amended: metadata results filled through fillin_fileinfo and
through apr_file_info_get's full by-handle path (when it reports
success or the partial-satisfaction status) carry a valid mask that is
a superset of the cheap minimal set {type, size, atime, ctime, mtime};
the size-only fast path of apr_file_info_get instead returns a valid
mask of exactly {SIZE}; and the protection field may carry the
read-only flag without any protection valid bit (see the
counterexample), while the valid mask remains authoritative for all
other fields. -/
theorem finfo_valid_min_superset_amended :
    (∀ (renv : ReparseEnv) (w : WinInfo) (byhandle finddata : Bool) (fname : String)
       (wanted : FinfoMask),
       APR_FINFO_MIN.subset (fillin_fileinfo renv w byhandle finddata fname wanted).1.valid
         = true) ∧
    (∀ (env : HandleEnv) (wanted : FinfoMask) (fname : String) (fIn : Finfo),
       (env.buffered = false ∨ env.flushResult = Status.success) →
       wanted ≠ APR_FINFO_SIZE_BIT →
       ((apr_file_info_get env wanted fname fIn).1 = Status.success ∨
        (apr_file_info_get env wanted fname fIn).1 = Status.incomplete) →
       APR_FINFO_MIN.subset (apr_file_info_get env wanted fname fIn).2.1.valid = true) ∧
    (∀ (env : HandleEnv) (fname : String) (fIn : Finfo),
       (apr_file_info_get env APR_FINFO_SIZE_BIT fname fIn).1 = Status.success →
       (apr_file_info_get env APR_FINFO_SIZE_BIT fname fIn).2.1.valid
         = APR_FINFO_SIZE_BIT) := by
  refine ⟨?_, ?_, ?_⟩
  · intro renv w byhandle finddata fname wanted
    unfold fillin_fileinfo
    split
    split
    simp [FinfoMask.subset, APR_FINFO_MIN]
  · intro env wanted fname fIn hflush hsz hst
    have hcond : ¬ (env.buffered ∧ env.flushResult ≠ Status.success) := by
      rcases hflush with h | h
      · intro hc
        rw [h] at hc
        exact Bool.false_ne_true hc.1
      · intro hc
        exact hc.2 h
    unfold apr_file_info_get at hst ⊢
    rw [if_neg hcond, if_neg hsz] at hst ⊢
    rcases henv : env.getInfoByHandle with - | hi
    · rw [henv] at hst
      dsimp only at hst
      rcases hst with h | h <;> simp at h
    · dsimp only
      apply min_subset_of_min_fields
      exact info_get_branch_min _ _ _ _ _ _ _ rfl
  · intro env fname fIn hst
    by_cases hA : env.buffered ∧ env.flushResult ≠ Status.success
    · exfalso
      unfold apr_file_info_get at hst
      rw [if_pos hA] at hst
      dsimp only at hst
      exact hA.2 hst
    · unfold apr_file_info_get at hst ⊢
      rw [if_neg hA] at hst ⊢
      rw [if_pos rfl] at hst ⊢
      rcases henv : env.getFileSizeEx with - | sz
      · rw [henv] at hst
        dsimp only at hst
        simp at hst
      · rfl

/-- Witness for the C2 amended theorem at concrete queries. -/
theorem finfo_valid_min_superset_amended_witness :
    APR_FINFO_MIN.subset
        (fillin_fileinfo {} {} false true "f" {}).1.valid = true ∧
    APR_FINFO_MIN.subset
        (apr_file_info_get { getInfoByHandle := some {} } APR_FINFO_MIN "f" {}).2.1.valid
      = true ∧
    (apr_file_info_get { getFileSizeEx := some 42 } APR_FINFO_SIZE_BIT "f" {}).2.1.valid
      = APR_FINFO_SIZE_BIT :=
  ⟨finfo_valid_min_superset_amended.1 {} {} false true "f" {},
   finfo_valid_min_superset_amended.2.1 { getInfoByHandle := some {} } APR_FINFO_MIN "f" {}
     (Or.inl rfl) (by decide) (Or.inl (by decide)),
   finfo_valid_min_superset_amended.2.2 { getFileSizeEx := some 42 } "f" {} (by decide)⟩

/-- A scan that starts from an already-bad running result never reports
success: the loop only keeps rv or degrades it to EPATHWILD/EBADPATH. -/
theorem test_safe_name_loop_keeps_bad (l : List Char) :
    test_safe_name_loop l Status.epathwild = Status.epathwild ∨
    test_safe_name_loop l Status.epathwild = Status.ebadpath := by
  induction l with
  | nil => exact Or.inl rfl
  | cons c rest ih =>
    show test_safe_name_loop (c :: rest) Status.epathwild = _ ∨ _
    unfold test_safe_name_loop
    split
    · split
      · exact ih
      · exact Or.inr rfl
    · exact ih

/-- Any character list containing a wildcard drives the scanning loop to
EPATHWILD or EBADPATH, whatever the running result was. -/
theorem test_safe_name_loop_wild (l : List Char) (rv : Status)
    (h : '*' ∈ l ∨ '?' ∈ l) :
    test_safe_name_loop l rv = Status.epathwild ∨
    test_safe_name_loop l rv = Status.ebadpath := by
  induction l generalizing rv with
  | nil => rcases h with h | h <;> cases h
  | cons c rest ih =>
    by_cases hc : c = '*' ∨ c = '?'
    · have hstep : test_safe_name_loop (c :: rest) rv
          = test_safe_name_loop rest Status.epathwild := by
        rcases hc with h | h <;> subst h <;> rfl
      rw [hstep]
      exact test_safe_name_loop_keeps_bad rest
    · have hrest : '*' ∈ rest ∨ '?' ∈ rest := by
        rcases h with h | h
        · rcases List.mem_cons.mp h with h1 | h1
          · exact absurd (Or.inl h1.symm) hc
          · exact Or.inl h1
        · rcases List.mem_cons.mp h with h1 | h1
          · exact absurd (Or.inr h1.symm) hc
          · exact Or.inr h1
      show test_safe_name_loop (c :: rest) rv = _ ∨ _
      unfold test_safe_name_loop
      split
      · split
        · exact test_safe_name_loop_keeps_bad rest
        · exact Or.inr rfl
      · exact ih rv hrest

/-- test_safe_name rejects every name containing a wildcard character
with EPATHWILD or EBADPATH (the skipped drive prefix cannot hold the
wildcard). -/
theorem test_safe_name_wild (fname : String)
    (h : '*' ∈ fname.data ∨ '?' ∈ fname.data) :
    test_safe_name fname = Status.epathwild ∨
    test_safe_name fname = Status.ebadpath := by
  rcases hd : fname.data with - | ⟨a, - | ⟨b, rest⟩⟩
  · rw [hd] at h
    rcases h with h | h <;> cases h
  · rw [hd] at h
    have he : test_safe_name fname = test_safe_name_loop [a] Status.success := by
      unfold test_safe_name
      rw [hd]
    rw [he]
    exact test_safe_name_loop_wild [a] Status.success h
  · rw [hd] at h
    have he : test_safe_name fname
        = if apr_isalpha a && b == ':' then test_safe_name_loop rest Status.success
          else test_safe_name_loop (a :: b :: rest) Status.success := by
      unfold test_safe_name
      rw [hd]
    rw [he]
    split_ifs with hdrive
    · simp only [Bool.and_eq_true, beq_iff_eq] at hdrive
      obtain ⟨hA, hB⟩ := hdrive
      have hrest : '*' ∈ rest ∨ '?' ∈ rest := by
        have ha1 : a ≠ '*' := by
          rintro rfl
          exact absurd hA (by decide)
        have ha2 : a ≠ '?' := by
          rintro rfl
          exact absurd hA (by decide)
        rcases h with h | h
        · rcases List.mem_cons.mp h with h1 | h1
          · exact absurd h1.symm ha1
          · rcases List.mem_cons.mp h1 with h2 | h2
            · rw [hB] at h2
              cases h2
            · exact Or.inl h2
        · rcases List.mem_cons.mp h with h1 | h1
          · exact absurd h1.symm ha2
          · rcases List.mem_cons.mp h1 with h2 | h2
            · rw [hB] at h2
              cases h2
            · exact Or.inr h2
      exact test_safe_name_loop_wild rest Status.success hrest
    · exact test_safe_name_loop_wild (a :: b :: rest) Status.success h

/-- C3 counterexample: a plain stat of the wildcard path "*" asking for
the default minimal fields (which leaves LINK clear, so the
open-by-handle branch runs first) issues a native CreateFileW open
attempt and then a native GetFileAttributesExW on the wildcard path,
and fails with the OS attribute error, not with EPATHWILD/EBADPATH: the
test_safe_name guard is never consulted on this path. -/
theorem stat_wildcard_reject_cex :
    (apr_stat { open1 := Status.enoent, attrErr := 2 } "*" APR_FINFO_MIN {}).1
        = Status.osError 2 ∧
    (apr_stat { open1 := Status.enoent, attrErr := 2 } "*" APR_FINFO_MIN {}).2.2
        = [FsCall.fileOpen, FsCall.getAttrEx] ∧
    ¬((apr_stat { open1 := Status.enoent, attrErr := 2 } "*" APR_FINFO_MIN {}).1
          = Status.epathwild ∨
      (apr_stat { open1 := Status.enoent, attrErr := 2 } "*" APR_FINFO_MIN {}).1
          = Status.ebadpath) := by
  decide

/-- C3 amended: the wildcard guard is reached only on the by-name leg:
when the NAME field is wanted (and, for this statement, the identity
fields are not wanted and LINK is wanted, so the open-by-handle
resolve_ident branch is skipped entirely), a path containing '*' or '?'
that passes the length pre-checks is rejected with EPATHWILD (or
EBADPATH for other offending characters) before any native call, the
caller's finfo memory untouched.  Without NAME wanted — or on the
open-by-handle branch — the wildcard path is passed straight to the
native open/attribute calls (see the counterexample). -/
theorem stat_wildcard_reject_amended (env : StatEnv) (fname : String)
    (wanted : FinfoMask) (fIn : Finfo)
    (hname : wanted.name = true) (hlink : wanted.link = true)
    (hdev : wanted.dev = false) (hino : wanted.inode = false)
    (hnl : wanted.nlink = false)
    (hlen : fname.length < APR_PATH_MAX)
    (hwild : '*' ∈ fname.data ∨ '?' ∈ fname.data) :
    ((apr_stat env fname wanted fIn).1 = Status.epathwild ∨
     (apr_stat env fname wanted fIn).1 = Status.ebadpath) ∧
    (apr_stat env fname wanted fIn).2.1 = fIn ∧
    (apr_stat env fname wanted fIn).2.2 = [] := by
  have hsafe := test_safe_name_wild fname hwild
  have h1 : ¬ fname.length ≥ APR_PATH_MAX := by omega
  unfold apr_stat
  rw [if_neg h1]
  have h2 : (wanted.dev || wanted.inode || wanted.nlink || !wanted.link) = false := by
    rw [hdev, hino, hnl, hlink]
    rfl
  rw [h2, if_neg (by decide : ¬ (false = true))]
  unfold apr_stat_rest
  have h3 : ¬ utf8_to_unicode_path APR_PATH_MAX fname ≠ Status.success := by
    unfold utf8_to_unicode_path
    rw [if_neg h1]
    simp
  rw [if_neg h3]
  have h4 : (!wanted.name) = false := by
    rw [hname]
    rfl
  rw [h4, if_neg (by decide : ¬ (false = true))]
  have h5 : test_safe_name fname ≠ Status.success := by
    rcases hsafe with h | h <;> rw [h] <;> decide
  rw [if_pos h5]
  exact ⟨hsafe, rfl, rfl⟩

/-- Witness for the C3 amended theorem: stat of "*" wanting NAME and
LINK is rejected before any native call. -/
theorem stat_wildcard_reject_amended_witness :
    ((apr_stat {} "*" { name := true, link := true } {}).1 = Status.epathwild ∨
     (apr_stat {} "*" { name := true, link := true } {}).1 = Status.ebadpath) ∧
    (apr_stat {} "*" { name := true, link := true } {}).2.1 = ({} : Finfo) ∧
    (apr_stat {} "*" { name := true, link := true } {}).2.2 = [] :=
  stat_wildcard_reject_amended {} "*" { name := true, link := true } {}
    rfl rfl rfl rfl rfl (by decide) (by decide)
